import Mathlib

/-! Verification development for `context/config_file.go`.

A shallow embedding of the configuration loader and its legacy-to-current
migration routine, followed by theorems about it.

* `Node` mirrors `yaml.Node` (the fields the code reads: `Kind`, `Value`, `Content`).
* Go maps are association lists with replace-on-assign (`mapSet`) and lookup (`mapGet`).
* The file system is an explicit `World`: a path-to-bytes table, an oracle for
  the failures of system calls, and a trace of the mutating calls attempted.
* A Go panic (index out of range) is the `Run.panic` outcome.
-/

set_option autoImplicit false

namespace ConfigFile

/-! ## Data model -/

/-- The `yaml.Kind` of a node; `ZeroKind` is the kind of a zero-valued `yaml.Node`. -/
inductive Kind
  | ZeroKind
  | DocumentNode
  | SequenceNode
  | MappingNode
  | ScalarNode
  | AliasNode
  deriving DecidableEq, Repr

/-- The part of `yaml.Node` that the code inspects: kind, scalar value, ordered children. -/
inductive Node
  | mk (kind : Kind) (value : String) (content : List Node)

/-- Field `Kind` of a node. -/
def Node.Kind : Node → Kind
  | .mk k _ _ => k

/-- Field `Value` of a node. -/
def Node.Value : Node → String
  | .mk _ v _ => v

/-- Field `Content` of a node. -/
def Node.Content : Node → List Node
  | .mk _ _ c => c

/-- Outcome of running Go code that may panic (index out of range). -/
inductive Run (α : Type)
  | panic
  | ret (a : α)
  deriving DecidableEq, Repr

/-- Raw file contents (`[]byte`). -/
abbrev Bytes := List UInt8

/-- An error reported by the operating system: its text and whether
`errors.Is(err, os.ErrNotExist)` holds for it. -/
structure OsErr where
  text : String
  notExist : Bool
  deriving DecidableEq, Repr

/-- Go error values seen by this package, by provenance. -/
inductive Err
  | errorsNew (msg : String)
  | os (e : OsErr)
  | shortWrite
  | yaml (msg : String)
  deriving DecidableEq, Repr

/-- The text of `err.Error()`, as used by the `%s` verb. -/
def Err.text : Err → String
  | .errorsNew m => m
  | .os e => e.text
  | .shortWrite => "short write"
  | .yaml m => m

/-- The classification `errors.Is(err, os.ErrNotExist)`. -/
def Err.isNotExist : Err → Bool
  | .os e => e.notExist
  | _ => false

/-! ## Go maps -/

/-- A Go `map[string]V`, kept as an association list with at most one entry per key
when built by `mapSet`. -/
abbrev GoMap (V : Type) := List (String × V)

/-- The two-result index expression `v, ok := m[k]`. -/
def mapGet {V : Type} : GoMap V → String → Option V
  | [], _ => none
  | (k', v) :: t, k => if k' = k then some v else mapGet t k

/-- The assignment `m[k] = v`. -/
def mapSet {V : Type} : GoMap V → String → V → GoMap V
  | [], k, v => [(k, v)]
  | (k', v') :: t, k, v => if k' = k then (k, v) :: t else (k', v') :: mapSet t k v

/-- The `ok` result of `_, ok := m[k]`. -/
def mapHas {V : Type} (m : GoMap V) (k : String) : Bool :=
  (mapGet m k).isSome

/-- The type `map[string]map[string]string` of the value stored under `hosts`. -/
abbrev Hosts := GoMap (GoMap String)

instance instDecidableEqHosts : DecidableEq Hosts :=
  fun a b => instDecidableEqList a b

/-- The type `map[string]map[string]map[string]string` of `newConfigData`. -/
abbrev ConfigData := GoMap Hosts

instance instDecidableEqConfigData : DecidableEq ConfigData :=
  fun a b => instDecidableEqList a b

/-! ## The file system -/

/-- System calls made by this package. -/
inductive Syscall
  | osOpen (path : String)
  | readAll (path : String)
  | rename (oldpath newpath : String)
  | openFile (path : String)
  | write (path : String) (data : Bytes)
  deriving DecidableEq, Repr

/-- The state of the outside world: file contents by path, the failures the
operating system will report, what a write call will report, and the trace of the
mutating system calls attempted so far (oldest first). -/
structure World where
  files : String → Option Bytes
  fault : Syscall → Option OsErr
  writeOutcome : String → Bytes → Nat × Option OsErr
  trace : List Syscall

/-- The call `os.Rename(oldpath, newpath)`: it fails when the operating system says so or
when there is no file at `oldpath`; otherwise the bytes move to `newpath`. -/
def osRename (oldpath newpath : String) (w : World) : Option OsErr × World :=
  let w1 : World := { w with trace := w.trace ++ [Syscall.rename oldpath newpath] }
  match w.fault (Syscall.rename oldpath newpath) with
  | some e => (some e, w1)
  | none =>
    match w.files oldpath with
    | none => (some ⟨"rename " ++ oldpath ++ " " ++ newpath ++ ": no such file or directory", true⟩, w1)
    | some b =>
      (none, { w1 with files := fun p =>
        if p = newpath then some b else if p = oldpath then none else w.files p })

/-- The call `os.OpenFile(path, os.O_RDWR|os.O_CREATE|os.O_TRUNC, 0600)`: unless it
fails, the file at `path` exists and is empty afterwards. -/
def osOpenFile (path : String) (w : World) : Option OsErr × World :=
  let w1 : World := { w with trace := w.trace ++ [Syscall.openFile path] }
  match w.fault (Syscall.openFile path) with
  | some e => (some e, w1)
  | none => (none, { w1 with files := fun p => if p = path then some [] else w.files p })

/-- The call `cfgFile.Write(data)` on the handle opened at `path`: it returns `(n, err)`
as the world dictates and leaves the first `n` bytes of `data` in the file. -/
def fileWrite (path : String) (data : Bytes) (w : World) : (Nat × Option OsErr) × World :=
  let out := w.writeOutcome path data
  (out, { w with
    trace := w.trace ++ [Syscall.write path data]
    files := fun p =>
      if p = path then some ((w.files path).getD [] ++ data.take out.1) else w.files p })

/-! ## External collaborators -/

/-- Modelled from the spec: the `Config` value built by `NewConfig` from the final
parsed tree (the type and its constructor live in a file of the package that is not
among the sources). -/
structure Config where
  root : Node

/-- Modelled from the spec: `NewConfig(root)` wraps the parsed tree. -/
def NewConfig (root : Node) : Config := ⟨root⟩

/-- What the code takes from outside this file: the default hostname constant, the
default path resolver `configFile()`, the YAML library, and the setup flow. -/
structure Env where
  defaultHostname : String
  configFile : String
  unmarshal : Bytes → Except String Node
  marshal : ConfigData → Except String Bytes
  setupConfigFile : String → World → Run (Option Config × Option Err) × World

/-! ## `config_file.go` -/

/-- The default `ReadConfigFile`: `os.Open`, then `ioutil.ReadAll`; it returns
either `(nil, err)` or `(data, nil)`. -/
def ReadConfigFile (fn : String) (w : World) : Except Err Bytes :=
  match w.fault (Syscall.osOpen fn) with
  | some e => .error (Err.os e)
  | none =>
    match w.files fn with
    | none => .error (Err.os ⟨"open " ++ fn ++ ": no such file or directory", true⟩)
    | some data =>
      match w.fault (Syscall.readAll fn) with
      | some e => .error (Err.os e)
      | none => .ok data

/-- The tail of a write (lines 47-52 and 147-152): with `(n, err)` from `Write`, a nil
`err` and `n < len(data)` give `io.ErrShortWrite`; otherwise `err` is returned. -/
def shortWriteCheck (n : Nat) (err : Option OsErr) (len : Nat) : Option Err :=
  match err with
  | none => if n < len then some Err.shortWrite else none
  | some e => some (Err.os e)

/-- The default `WriteConfigFile`: it opens `configFile()`, whatever `fn` is. -/
def WriteConfigFile (env : Env) (_fn : String) (data : Bytes) (w : World) : Option Err × World :=
  match osOpenFile env.configFile w with
  | (some e, w1) => (some (Err.os e), w1)
  | (none, w1) =>
    match fileWrite env.configFile data w1 with
    | ((n, err), w2) => (shortWriteCheck n err data.length, w2)

/-- Function `parseConfigFile` (lines 55-74): returns `(data, root, err)`. -/
def parseConfigFile (env : Env) (fn : String) (w : World) :
    Option Bytes × Option Node × Option Err :=
  match ReadConfigFile fn w with
  | .error err => (none, none, some err)
  | .ok data =>
    match env.unmarshal data with
    | .error m => (some data, none, some (Err.yaml m))
    | .ok root =>
      match root.Content with
      | [] => (some data, some root, some (Err.errorsNew "malformed config"))
      | c0 :: _ =>
        if c0.Kind ≠ Kind.MappingNode then
          (some data, some root, some (Err.errorsNew "expected a top level map"))
        else (some data, some root, none)

/-- The loop of `isLegacy` over `root.Content[0].Content`. -/
def isLegacyLoop : List Node → Bool
  | [] => true
  | v :: rest => if v.Value = "hosts" then false else isLegacyLoop rest

/-- Function `isLegacy` (lines 76-84); `root.Content[0]` panics when `root.Content` is
empty. -/
def isLegacy (root : Node) : Run Bool :=
  match root.Content with
  | [] => Run.panic
  | c0 :: _ => Run.ret (isLegacyLoop c0.Content)

/-- The inner loop of `migrateConfig` (lines 105-115) over the remaining nodes
`authKeys[j:]`; `m` is the map `newConfigData["hosts"][hostname]`. -/
def walkAuth : List Node → GoMap String → GoMap String
  | [], m => m
  | y :: rest, m =>
    match rest with
    | [] => m
    | v :: _ =>
      if y.Value = "user" then walkAuth rest (mapSet m "user" v.Value)
      else if y.Value = "oauth_token" then walkAuth rest (mapSet m "oauth_token" v.Value)
      else walkAuth rest m

/-- The outer loop of `migrateConfig` (lines 93-116) over the remaining nodes
`topLevelKeys[i:]`; `hosts` is the map `newConfigData["hosts"]`. The host's map is
created empty (line 101), filled by the inner loop, and is the object stored under the
hostname; `topLevelKeys[i+1].Content[0]` (line 103) panics when that node has no
content, and the maps built so far are then lost with the call. -/
def walkHosts : List Node → Hosts → Run Hosts
  | [], hosts => Run.ret hosts
  | x :: rest, hosts =>
    if x.Value = "" then walkHosts rest hosts
    else
      match rest with
      | [] => Run.ret hosts
      | v :: _ =>
        match v.Content with
        | [] => Run.panic
        | c0 :: _ => walkHosts rest (mapSet hosts x.Value (walkAuth c0.Content []))

/-- Lines 88-116 of `migrateConfig`: the rebuilt `newConfigData`. -/
def rebuild (root : Node) : Run ConfigData :=
  match root.Content with
  | [] => Run.panic
  | c0 :: _ =>
    match walkHosts c0.Content [] with
    | Run.panic => Run.panic
    | Run.ret hosts => Run.ret [("hosts", hosts)]

/-- Lines 118-130 of `migrateConfig`: the validation gate. -/
def validate (defaultHostname : String) (newConfigData : ConfigData) : Option Err :=
  match mapGet ((mapGet newConfigData "hosts").getD []) defaultHostname with
  | none => some (Err.errorsNew "could not find default host configuration")
  | some defaultHostConfig =>
    if !mapHas defaultHostConfig "user" then
      some (Err.errorsNew "default host configuration missing user")
    else if !mapHas defaultHostConfig "oauth_token" then
      some (Err.errorsNew "default host configuration missing oauth_token")
    else none

/-- Lines 137-152 of `migrateConfig`: back up, recreate, write. -/
def replaceFile (fn : String) (newConfig : Bytes) (w : World) : Option Err × World :=
  match osRename fn (fn ++ ".bak") w with
  | (some e, w1) =>
    (some (Err.errorsNew ("failed to back up existing config: " ++ e.text)), w1)
  | (none, w1) =>
    match osOpenFile fn w1 with
    | (some e, w2) =>
      (some (Err.errorsNew ("failed to open new config file for writing: " ++ e.text)), w2)
    | (none, w2) =>
      match fileWrite fn newConfig w2 with
      | ((n, err), w3) => (shortWriteCheck n err newConfig.length, w3)

/-- Function `migrateConfig` (lines 86-153): rebuild, validate, serialize, replace the
file; it returns the error (or nil) and the world it leaves. -/
def migrateConfig (env : Env) (fn : String) (root : Node) (w : World) :
    Run (Option Err) × World :=
  match rebuild root with
  | Run.panic => (Run.panic, w)
  | Run.ret newConfigData =>
    match validate env.defaultHostname newConfigData with
    | some e => (Run.ret (some e), w)
    | none =>
      match env.marshal newConfigData with
      | .error m => (Run.ret (some (Err.yaml m)), w)
      | .ok newConfig =>
        match replaceFile fn newConfig w with
        | (err, w1) => (Run.ret err, w1)

/-- Function `ParseConfig` (lines 155-174): returns `(Config, error)` and the world it
leaves. A nil tree with a nil error, which `parseConfigFile` never returns, would be a
nil dereference. -/
def ParseConfig (env : Env) (fn : String) (w : World) :
    Run (Option Config × Option Err) × World :=
  match parseConfigFile env fn w with
  | (_, _, some err) => (Run.ret (none, some err), w)
  | (_, none, none) => (Run.panic, w)
  | (_, some root, none) =>
    match isLegacy root with
    | Run.panic => (Run.panic, w)
    | Run.ret false => (Run.ret (some (NewConfig root), none), w)
    | Run.ret true =>
      match migrateConfig env fn root w with
      | (Run.panic, w1) => (Run.panic, w1)
      | (Run.ret (some err), w1) => (Run.ret (none, some err), w1)
      | (Run.ret none, w1) =>
        match parseConfigFile env fn w1 with
        | (_, _, some err) =>
          (Run.ret (none, some (Err.errorsNew ("failed to reparse migrated config: " ++ err.text))), w1)
        | (_, none, none) => (Run.panic, w1)
        | (_, some root1, none) => (Run.ret (some (NewConfig root1), none), w1)

/-- Function `parseOrSetupConfigFile` (lines 13-19). -/
def parseOrSetupConfigFile (env : Env) (fn : String) (w : World) :
    Run (Option Config × Option Err) × World :=
  match ParseConfig env fn w with
  | (Run.panic, w1) => (Run.panic, w1)
  | (Run.ret (config, err), w1) =>
    match err with
    | some e => if e.isNotExist then env.setupConfigFile fn w1 else (Run.ret (config, err), w1)
    | none => (Run.ret (config, err), w1)

/-- Function `ParseDefaultConfig` (lines 21-23). -/
def ParseDefaultConfig (env : Env) (w : World) : Run (Option Config × Option Err) × World :=
  ParseConfig env env.configFile w

/-! ## The Config facade -/

/-- Modelled from the spec: lookup of `key` among the alternating key/value children
of a mapping node (the facade is a "trivial mapping lookup"); the first pair whose key
node carries `key` answers. -/
def findEntry : List Node → String → Option Node
  | k :: v :: rest, key => if k.Value = key then some v else findEntry rest key
  | _, _ => none

/-- Modelled from the spec: the host-not-found error of the facade,
`could not find config entry for "<host>"`. -/
def hostNotFound (hostname : String) : Err :=
  Err.errorsNew ("could not find config entry for \"" ++ hostname ++ "\"")

/-- Modelled from the spec: the field-not-found error of the facade; the spec gives
no text for it, only that it is distinct from the host-not-found error. -/
def fieldNotFound : Err := Err.errorsNew "not found"

/-- Modelled from the spec: `configForHost` resolves the host's field mapping under
the top-level `hosts` key, failing with the host-not-found error if absent. -/
def Config.configForHost (c : Config) (hostname : String) : Except Err Node :=
  match c.root.Content with
  | [] => .error (hostNotFound hostname)
  | top :: _ =>
    match findEntry top.Content "hosts" with
    | none => .error (hostNotFound hostname)
    | some hosts =>
      match findEntry hosts.Content hostname with
      | none => .error (hostNotFound hostname)
      | some hostConfig => .ok hostConfig

/-- Modelled from the spec: `Get(host, key)` resolves the host's field mapping first,
then the field. -/
def Config.Get (c : Config) (hostname key : String) : Except Err String :=
  match c.configForHost hostname with
  | .error e => .error e
  | .ok hostConfig =>
    match findEntry hostConfig.Content key with
    | none => .error fieldNotFound
    | some v => .ok v.Value

/-! ## Documents

Trees as the YAML parser builds them: collection nodes carry the empty `Value`. -/

/-- A scalar node. -/
def scalar (s : String) : Node := Node.mk Kind.ScalarNode s []

/-- A mapping node over alternating key/value children. -/
def mapping (c : List Node) : Node := Node.mk Kind.MappingNode "" c

/-- A sequence node. -/
def sequence (c : List Node) : Node := Node.mk Kind.SequenceNode "" c

/-- A document node around its top-level content node. -/
def document (top : Node) : Node := Node.mk Kind.DocumentNode "" [top]

/-- The children of a field mapping `{k: v, ...}`. -/
def fieldNodes : List (String × String) → List Node
  | [] => []
  | (k, v) :: t => scalar k :: scalar v :: fieldNodes t

/-- The children of a mapping from each host directly to its field mapping. -/
def directHostNodes : List (String × List (String × String)) → List Node
  | [] => []
  | (h, fs) :: t => scalar h :: mapping (fieldNodes fs) :: directHostNodes t

/-- The children of a mapping from each host to a one-element sequence holding its
field mapping. -/
def listedHostNodes : List (String × List (String × String)) → List Node
  | [] => []
  | (h, fs) :: t => scalar h :: sequence [mapping (fieldNodes fs)] :: listedHostNodes t

/-- The legacy layout as the spec words it: `{host: {user: u, oauth_token: t}, ...}`. -/
def directLegacyDoc (entries : List (String × List (String × String))) : Node :=
  document (mapping (directHostNodes entries))

/-- The legacy layout that `migrateConfig` reads (`topLevelKeys[i+1].Content[0].Content`):
each host maps to a sequence whose first element is the field mapping. -/
def listedLegacyDoc (entries : List (String × List (String × String))) : Node :=
  document (mapping (listedHostNodes entries))

/-- The current layout: a top-level `hosts` key over host-to-field-mapping pairs. -/
def currentDoc (entries : List (String × List (String × String))) : Node :=
  document (mapping [scalar "hosts", mapping (directHostNodes entries)])

/-- The key nodes (children at even positions) of a mapping's content. -/
def keyNodes : List Node → List Node
  | [] => []
  | [k] => [k]
  | k :: _ :: t => k :: keyNodes t

/-- The root's first content node exists and is a mapping. -/
def MapRooted (root : Node) : Prop :=
  ∃ c0 rest, root.Content = c0 :: rest ∧ c0.Kind = Kind.MappingNode

/-- The three validation errors of `migrateConfig`. -/
def validationErrors : List Err :=
  [Err.errorsNew "could not find default host configuration",
   Err.errorsNew "default host configuration missing user",
   Err.errorsNew "default host configuration missing oauth_token"]

/-- No field value is the text of a recognized field name. -/
def PlainValues (fs : List (String × String)) : Prop :=
  ∀ p ∈ fs, p.2 ≠ "user" ∧ p.2 ≠ "oauth_token"

instance instDecidablePlainValues (fs : List (String × String)) : Decidable (PlainValues fs) := by
  unfold PlainValues
  infer_instance

/-- The YAML library keeps top-level keys: whatever `marshal` emits for a map,
`unmarshal` reads back as a map-rooted document having each of the map's keys as the
value of a key node. -/
def TopKeysPreserved (env : Env) : Prop :=
  ∀ d b, env.marshal d = .ok b →
    ∃ r c0 rest, env.unmarshal b = .ok r ∧ r.Content = c0 :: rest ∧
      c0.Kind = Kind.MappingNode ∧
      ∀ k, mapHas d k = true → ∃ n ∈ keyNodes c0.Content, n.Value = k

/-! ## Auxiliary definitions for the statements -/

/-- Assigning a list of pairs in order, as a loop of `m[k] = v` does. -/
def setAll {V : Type} : List (String × V) → GoMap V → GoMap V
  | [], m => m
  | (k, v) :: t, m => setAll t (mapSet m k v)

/-- The pairs of a field list whose key is a recognized field name. -/
def recognizedFields (fs : List (String × String)) : List (String × String) :=
  fs.filter (fun p => decide (p.1 = "user" ∨ p.1 = "oauth_token"))

/-- The hosts assigned by the outer walk over a listed legacy document. -/
def listedAssignments (entries : List (String × List (String × String))) :
    List (String × GoMap String) :=
  entries.map (fun e => (e.1, walkAuth (fieldNodes e.2) []))

/-! ## Sample inputs -/

/-- ASCII text as bytes. -/
def asciiBytes (s : String) : Bytes := s.toList.map (fun c => UInt8.ofNat c.toNat)

/-- Bytes of a legacy file. -/
def sampleLegacyBytes : Bytes :=
  asciiBytes "github.com:\n- user: monalisa\n  oauth_token: OTOKEN\n"

/-- A plain printer for the rebuilt structure, standing in for `yaml.Marshal`: one line
per key, four more spaces per level. -/
def printFields : GoMap String → String
  | [] => ""
  | (k, v) :: t => "        " ++ k ++ ": " ++ v ++ "\n" ++ printFields t

/-- The printer, at the level of hosts. -/
def printHosts : Hosts → String
  | [] => ""
  | (h, fs) :: t => "    " ++ h ++ ":\n" ++ printFields fs ++ printHosts t

/-- The printer, at the top level. -/
def printConfig : ConfigData → String
  | [] => ""
  | (k, hosts) :: t => k ++ ":\n" ++ printHosts hosts ++ printConfig t

/-- The rebuilt structure for the sample legacy file. -/
def sampleData : ConfigData :=
  [("hosts", [("github.com", [("user", "monalisa"), ("oauth_token", "OTOKEN")])])]

/-- Bytes of a current-layout file. -/
def sampleCurrentBytes : Bytes :=
  asciiBytes "hosts:\n    github.com:\n        user: monalisa\n        oauth_token: OTOKEN\n"

/-- The tree of the sample current-layout file. -/
def sampleCurrentTree : Node :=
  currentDoc [("github.com", [("user", "monalisa"), ("oauth_token", "OTOKEN")])]

/-- The tree of the sample legacy file. -/
def sampleLegacyTree : Node :=
  listedLegacyDoc [("github.com", [("user", "monalisa"), ("oauth_token", "OTOKEN")])]

/-- The hosts of the two-host current-layout file of the package's tests. -/
def sampleTwoHosts : List (String × List (String × String)) :=
  [("example.com", [("user", "wronguser"), ("oauth_token", "NOTTHIS")]),
   ("github.com", [("user", "monalisa"), ("oauth_token", "OTOKEN")])]

/-- Bytes of the two-host current-layout file. -/
def sampleTwoHostsBytes : Bytes :=
  asciiBytes ("hosts:\n  example.com:\n    user: wronguser\n    oauth_token: NOTTHIS\n" ++
    "  github.com:\n    user: monalisa\n    oauth_token: OTOKEN\n")

/-- Bytes of a file whose top-level node is a sequence. -/
def sampleListBytes : Bytes := asciiBytes "- a\n- b\n"

/-- A sample environment: default host `github.com`, the plain printer as serializer,
and a parser that knows the sample files. -/
def sampleEnv : Env where
  defaultHostname := "github.com"
  configFile := "/home/monalisa/.config/gh/config.yml"
  unmarshal := fun b =>
    if b = sampleCurrentBytes then .ok sampleCurrentTree
    else if b = sampleLegacyBytes then .ok sampleLegacyTree
    else if b = sampleTwoHostsBytes then .ok (currentDoc sampleTwoHosts)
    else if b = sampleListBytes then .ok (document (sequence [scalar "a", scalar "b"]))
    else if b = [] then .ok (Node.mk Kind.ZeroKind "" [])
    else .error "yaml: unsupported document"
  marshal := fun d => .ok (asciiBytes (printConfig d))
  setupConfigFile := fun _ w => (Run.ret (none, none), w)

/-- The sample environment with a serializer restricted to the sample structure, so
that everything it emits is read back by the sample parser. -/
def strictEnv : Env where
  defaultHostname := sampleEnv.defaultHostname
  configFile := sampleEnv.configFile
  unmarshal := sampleEnv.unmarshal
  marshal := fun d =>
    if d = sampleData then sampleEnv.marshal d else .error "yaml: unsupported value"
  setupConfigFile := sampleEnv.setupConfigFile

/-- Two legacy hosts, the second with an unrecognized field. -/
def sampleEntries : List (String × List (String × String)) :=
  [("example.com", [("user", "wronguser"), ("oauth_token", "NOTTHIS")]),
   ("github.com", [("user", "monalisa"), ("editor", "vim"), ("oauth_token", "OTOKEN")])]

/-- A legacy document whose default-host block has no key `user`: the text `user` occurs
only as the value of `foo`. -/
def sampleNoUserKey : Node :=
  listedLegacyDoc [("github.com", [("foo", "user"), ("bar", "b"), ("oauth_token", "OTOKEN")])]

/-- A sample world: the legacy file at `cfg`, current-layout files at `cur` and `two`,
a sequence-rooted file at `list`, an empty file at `empty`, no failures, complete
writes. -/
def sampleWorld : World where
  files := fun p =>
    if p = "cfg" then some sampleLegacyBytes
    else if p = "cur" then some sampleCurrentBytes
    else if p = "two" then some sampleTwoHostsBytes
    else if p = "list" then some sampleListBytes
    else if p = "empty" then some []
    else none
  fault := fun _ => none
  writeOutcome := fun _ data => (data.length, none)
  trace := []


/-- The sample world with a disk that accepts no byte: every write reports `(0, err)`. -/
def fullDiskWorld : World :=
  { sampleWorld with
    writeOutcome := fun _ _ => (0, some ⟨"write cfg: no space left on device", false⟩) }

/-- The sample world where renaming `cfg` to `cfg.bak` is refused. -/
def noRenameWorld : World :=
  { sampleWorld with
    fault := fun c =>
      if c = Syscall.rename "cfg" "cfg.bak" then
        some ⟨"rename cfg cfg.bak: permission denied", false⟩
      else none }

/-- The sample world where creating `cfg` is refused. -/
def noCreateWorld : World :=
  { sampleWorld with
    fault := fun c =>
      if c = Syscall.openFile "cfg" then some ⟨"open cfg: permission denied", false⟩
      else none }

/-- The sample world where every write stops one byte short and reports no error. -/
def shortWriteWorld : World :=
  { sampleWorld with writeOutcome := fun _ data => (data.length - 1, none) }

/-- A map-rooted legacy document whose host has a scalar value: `github.com: token`. -/
def sampleScalarHost : Node :=
  document (mapping [scalar "github.com", scalar "token"])

/-- A map-rooted legacy document whose host has an empty sequence as value:
`github.com: []`. -/
def sampleEmptyListHost : Node :=
  document (mapping [scalar "github.com", sequence []])

/-- A map-rooted document with an empty key over a scalar value, followed by a
sequence used as key: `"": example.org` and `? [x] : y`. -/
def sampleValueHost : Node :=
  document (mapping [scalar "", scalar "example.org", sequence [scalar "x"], scalar "y"])

/-- The legacy document of a user whose name is `user`:
`github.com: [{user: user, oauth_token: OTOKEN}]`. -/
def sampleUserNamedUser : Node :=
  listedLegacyDoc [("github.com", [("user", "user"), ("oauth_token", "OTOKEN")])]

/-- The children of a mapping from each host to a sequence whose first element is its
field mapping and whose further elements are any nodes. -/
def sequencedHostNodes : List (String × List (String × String) × List Node) → List Node
  | [] => []
  | (h, fs, more) :: t =>
    scalar h :: sequence (mapping (fieldNodes fs) :: more) :: sequencedHostNodes t

/-- The legacy layout that `migrateConfig` reads, in general: each host maps to a
sequence whose first element is the field mapping; the sequence may go on. -/
def sequencedLegacyDoc (entries : List (String × List (String × String) × List Node)) : Node :=
  document (mapping (sequencedHostNodes entries))

/-- The hosts assigned by the outer walk over a sequenced legacy document. -/
def sequencedAssignments (entries : List (String × List (String × String) × List Node)) :
    List (String × GoMap String) :=
  entries.map (fun e => (e.1, walkAuth (fieldNodes e.2.1) []))

/-- Two legacy hosts; the second has an unrecognized field, and its sequence goes on
with another field mapping and a stray scalar. -/
def sampleSequencedEntries : List (String × List (String × String) × List Node) :=
  [("example.com", [("user", "wronguser"), ("oauth_token", "NOTTHIS")], []),
   ("github.com", [("user", "monalisa"), ("editor", "vim"), ("oauth_token", "OTOKEN")],
     [mapping (fieldNodes [("user", "hubot"), ("oauth_token", "OTHER")]), scalar "stray"])]

/-! ## Go map lemmas -/

theorem mapGet_mapSet_self {V : Type} (m : GoMap V) (k : String) (v : V) :
    mapGet (mapSet m k v) k = some v := by
  induction m with
  | nil => simp [mapSet, mapGet]
  | cons p t ih =>
    obtain ⟨k', v'⟩ := p
    by_cases h : k' = k
    · simp [mapSet, mapGet, h]
    · simp [mapSet, mapGet, h, ih]

theorem mapGet_mapSet_ne {V : Type} (m : GoMap V) (k k' : String) (v : V) (hk : k' ≠ k) :
    mapGet (mapSet m k v) k' = mapGet m k' := by
  induction m with
  | nil => simp [mapSet, mapGet, Ne.symm hk]
  | cons p t ih =>
    obtain ⟨k₀, v₀⟩ := p
    by_cases h : k₀ = k
    · subst h
      simp [mapSet, mapGet, Ne.symm hk]
    · by_cases h2 : k₀ = k'
      · subst h2
        simp [mapSet, mapGet, h]
      · simp [mapSet, mapGet, h, h2, ih]

theorem mapGet_setAll_of_not_mem {V : Type} (l : List (String × V)) (m : GoMap V) (k : String)
    (hk : k ∉ l.map Prod.fst) : mapGet (setAll l m) k = mapGet m k := by
  induction l generalizing m with
  | nil => rfl
  | cons p t ih =>
    obtain ⟨k₀, v₀⟩ := p
    simp only [List.map_cons, List.mem_cons, not_or] at hk
    simp only [setAll]
    rw [ih _ hk.2, mapGet_mapSet_ne _ _ _ _ hk.1]

theorem mapGet_setAll_of_mem {V : Type} (l : List (String × V)) (m : GoMap V) (k : String) (v : V)
    (hnd : (l.map Prod.fst).Nodup) (hmem : (k, v) ∈ l) : mapGet (setAll l m) k = some v := by
  induction l generalizing m with
  | nil => simp at hmem
  | cons p t ih =>
    obtain ⟨k₀, v₀⟩ := p
    simp only [List.map_cons, List.nodup_cons] at hnd
    simp only [setAll]
    rcases List.mem_cons.mp hmem with heq | htail
    · injection heq with h1 h2
      subst h1; subst h2
      rw [mapGet_setAll_of_not_mem _ _ _ hnd.1, mapGet_mapSet_self]
    · exact ih _ hnd.2 htail

/-! ## The inner walk -/

theorem walkAuth_cons_cons (y v : Node) (rest : List Node) (m : GoMap String) :
    walkAuth (y :: v :: rest) m =
      if y.Value = "user" then walkAuth (v :: rest) (mapSet m "user" v.Value)
      else if y.Value = "oauth_token" then walkAuth (v :: rest) (mapSet m "oauth_token" v.Value)
      else walkAuth (v :: rest) m := by
  rw [walkAuth]

theorem scalar_Value (s : String) : (scalar s).Value = s := rfl

theorem walkAuth_skip_value (v : String) (l : List Node) (m : GoMap String)
    (h1 : v ≠ "user") (h2 : v ≠ "oauth_token") :
    walkAuth (scalar v :: l) m = walkAuth l m := by
  cases l with
  | nil => simp [walkAuth]
  | cons a t => rw [walkAuth_cons_cons, scalar_Value, if_neg h1, if_neg h2]

theorem recognizedFields_cons (k v : String) (t : List (String × String)) :
    recognizedFields ((k, v) :: t) =
      if k = "user" ∨ k = "oauth_token" then (k, v) :: recognizedFields t
      else recognizedFields t := by
  by_cases h : k = "user" ∨ k = "oauth_token"
  · rw [if_pos h]
    simp [recognizedFields, List.filter_cons, h]
  · rw [if_neg h]
    simp [recognizedFields, List.filter_cons, h]

theorem walkAuth_fieldNodes (fs : List (String × String)) (m : GoMap String)
    (hp : PlainValues fs) :
    walkAuth (fieldNodes fs) m = setAll (recognizedFields fs) m := by
  induction fs generalizing m with
  | nil => simp [fieldNodes, walkAuth, recognizedFields, setAll]
  | cons p t ih =>
    obtain ⟨k, v⟩ := p
    have hv := hp (k, v) (List.mem_cons_self _ _)
    have ht : PlainValues t := fun q hq => hp q (List.mem_cons_of_mem _ hq)
    rw [fieldNodes, walkAuth_cons_cons, scalar_Value, scalar_Value, recognizedFields_cons]
    by_cases hu : k = "user"
    · rw [if_pos hu, if_pos (Or.inl hu), walkAuth_skip_value _ _ _ hv.1 hv.2, ih _ ht, hu]
      rfl
    · by_cases ho : k = "oauth_token"
      · rw [if_neg hu, if_pos ho, if_pos (Or.inr ho), walkAuth_skip_value _ _ _ hv.1 hv.2,
          ih _ ht, ho]
        rfl
      · rw [if_neg hu, if_neg ho, if_neg (by simp [hu, ho]),
          walkAuth_skip_value _ _ _ hv.1 hv.2, ih _ ht]

theorem recognizedFields_nodup (fs : List (String × String))
    (hnd : (fs.map Prod.fst).Nodup) : ((recognizedFields fs).map Prod.fst).Nodup :=
  List.Nodup.sublist (List.Sublist.map _ (List.filter_sublist _)) hnd

theorem walkAuth_fieldNodes_get (fs : List (String × String)) (u t : String)
    (hnd : (fs.map Prod.fst).Nodup) (hp : PlainValues fs)
    (hu : ("user", u) ∈ fs) (ht : ("oauth_token", t) ∈ fs) (k : String) :
    mapGet (walkAuth (fieldNodes fs) []) k =
      if k = "user" then some u else if k = "oauth_token" then some t else none := by
  rw [walkAuth_fieldNodes fs [] hp]
  have hnd2 := recognizedFields_nodup fs hnd
  by_cases h1 : k = "user"
  · subst h1
    rw [if_pos rfl]
    exact mapGet_setAll_of_mem _ _ _ _ hnd2 (by simp [recognizedFields, List.mem_filter, hu])
  · by_cases h2 : k = "oauth_token"
    · subst h2
      rw [if_neg h1, if_pos rfl]
      exact mapGet_setAll_of_mem _ _ _ _ hnd2 (by simp [recognizedFields, List.mem_filter, ht])
    · rw [if_neg h1, if_neg h2, mapGet_setAll_of_not_mem]
      · rfl
      · intro hmem
        obtain ⟨p, hp1, hp2⟩ := List.mem_map.mp hmem
        simp only [recognizedFields, List.mem_filter, decide_eq_true_eq] at hp1
        rcases hp1.2 with h | h
        · exact h1 (hp2 ▸ h)
        · exact h2 (hp2 ▸ h)

/-! ## The outer walk -/

theorem walkHosts_listed (entries : List (String × List (String × String))) (hosts : Hosts)
    (hne : ∀ e ∈ entries, e.1 ≠ "") :
    walkHosts (listedHostNodes entries) hosts = Run.ret (setAll (listedAssignments entries) hosts) := by
  induction entries generalizing hosts with
  | nil => simp [listedHostNodes, walkHosts, listedAssignments, setAll]
  | cons e t ih =>
    obtain ⟨h, fs⟩ := e
    have hh : h ≠ "" := hne (h, fs) (List.mem_cons_self _ _)
    have ht : ∀ e ∈ t, e.1 ≠ "" := fun q hq => hne q (List.mem_cons_of_mem _ hq)
    simp [listedHostNodes, walkHosts, scalar, sequence, mapping, Node.Value, Node.Content, hh]
    rw [ih _ ht]
    simp [listedAssignments, setAll, mapping, Node.Content]

theorem rebuild_listed (entries : List (String × List (String × String)))
    (hne : ∀ e ∈ entries, e.1 ≠ "") :
    rebuild (listedLegacyDoc entries) =
      Run.ret [("hosts", setAll (listedAssignments entries) [])] := by
  simp [rebuild, listedLegacyDoc, document, mapping, Node.Content, walkHosts_listed entries [] hne]

theorem walkHosts_sequenced (entries : List (String × List (String × String) × List Node))
    (hosts : Hosts) (hne : ∀ e ∈ entries, e.1 ≠ "") :
    walkHosts (sequencedHostNodes entries) hosts
      = Run.ret (setAll (sequencedAssignments entries) hosts) := by
  induction entries generalizing hosts with
  | nil => simp [sequencedHostNodes, walkHosts, sequencedAssignments, setAll]
  | cons e t ih =>
    obtain ⟨h, fs, more⟩ := e
    have hh : h ≠ "" := hne (h, fs, more) (List.mem_cons_self _ _)
    have ht : ∀ e ∈ t, e.1 ≠ "" := fun q hq => hne q (List.mem_cons_of_mem _ hq)
    simp [sequencedHostNodes, walkHosts, scalar, sequence, mapping, Node.Value, Node.Content, hh]
    rw [ih _ ht]
    simp [sequencedAssignments, setAll, mapping, Node.Content]

theorem rebuild_sequenced (entries : List (String × List (String × String) × List Node))
    (hne : ∀ e ∈ entries, e.1 ≠ "") :
    rebuild (sequencedLegacyDoc entries) =
      Run.ret [("hosts", setAll (sequencedAssignments entries) [])] := by
  simp [rebuild, sequencedLegacyDoc, document, mapping, Node.Content,
    walkHosts_sequenced entries [] hne]

/-! ## C1: migration of a whole legacy document -/

theorem migrateConfig_of_rebuild (env : Env) (fn : String) (root : Node) (w : World)
    (d : ConfigData) (hr : rebuild root = Run.ret d)
    (hv : validate env.defaultHostname d = none) :
    migrateConfig env fn root w =
      (match env.marshal d with
       | .error m => (Run.ret (some (Err.yaml m)), w)
       | .ok newConfig =>
         (Run.ret (replaceFile fn newConfig w).1, (replaceFile fn newConfig w).2)) := by
  unfold migrateConfig
  rw [hr]
  simp only [hv]

/-- C1, as stated, fails: on the document `{github.com: {user: monalisa, oauth_token:
OTOKEN}}`, whose host maps directly to its field mapping, the walk reads the children
of the first key node, rebuilds an empty entry for the host, and `migrateConfig`
returns the validation error `default host configuration missing user`. -/
theorem migrateConfig_direct_layout_rejected :
    rebuild (directLegacyDoc [("github.com", [("user", "monalisa"), ("oauth_token", "OTOKEN")])])
        = Run.ret [("hosts", [("github.com", [])])] ∧
      (migrateConfig sampleEnv "cfg"
          (directLegacyDoc [("github.com", [("user", "monalisa"), ("oauth_token", "OTOKEN")])])
          sampleWorld).1
        = Run.ret (some (Err.errorsNew "default host configuration missing user")) := by
  constructor <;> decide

/-- C1 (amended): for every legacy document whose top-level mapping maps each of N
distinct non-empty hostnames (the default host among them) to a sequence whose first
element is a field mapping with distinct keys holding `user: u` and `oauth_token: t`
and possibly other fields, no field value being the text `user` or `oauth_token`,
and whatever nodes follow that first element in the sequence, `migrateConfig` passes
validation and the structure it serializes is the single key `hosts` over a map that
holds exactly the N hosts, each with exactly `{user: u, oauth_token: t}` for the `u`
and `t` of the first element of its own sequence. -/
theorem migrateConfig_listed_layout (env : Env) (fn : String) (w : World)
    (entries : List (String × List (String × String) × List Node))
    (hne : ∀ e ∈ entries, e.1 ≠ "")
    (hnd : (entries.map Prod.fst).Nodup)
    (hdef : env.defaultHostname ∈ entries.map Prod.fst)
    (hfields : ∀ e ∈ entries, (e.2.1.map Prod.fst).Nodup ∧ PlainValues e.2.1 ∧
      "user" ∈ e.2.1.map Prod.fst ∧ "oauth_token" ∈ e.2.1.map Prod.fst) :
    ∃ hosts : Hosts,
      rebuild (sequencedLegacyDoc entries) = Run.ret [("hosts", hosts)] ∧
      validate env.defaultHostname [("hosts", hosts)] = none ∧
      migrateConfig env fn (sequencedLegacyDoc entries) w =
        (match env.marshal [("hosts", hosts)] with
         | .error m => (Run.ret (some (Err.yaml m)), w)
         | .ok newConfig =>
           (Run.ret (replaceFile fn newConfig w).1, (replaceFile fn newConfig w).2)) ∧
      (∀ h, h ∉ entries.map Prod.fst → mapGet hosts h = none) ∧
      (∀ h fs more u t, (h, fs, more) ∈ entries → ("user", u) ∈ fs →
        ("oauth_token", t) ∈ fs →
        ∃ m, mapGet hosts h = some m ∧
          ∀ k, mapGet m k =
            if k = "user" then some u else if k = "oauth_token" then some t else none) := by
  have hr := rebuild_sequenced entries hne
  have hkeys : (sequencedAssignments entries).map Prod.fst = entries.map Prod.fst := by
    simp [sequencedAssignments, List.map_map, Function.comp_def]
  have hand : ((sequencedAssignments entries).map Prod.fst).Nodup := by
    rw [hkeys]
    exact hnd
  have hget : ∀ h fs more, (h, fs, more) ∈ entries →
      mapGet (setAll (sequencedAssignments entries) ([] : Hosts)) h
        = some (walkAuth (fieldNodes fs) []) := by
    intro h fs more hmem
    apply mapGet_setAll_of_mem _ _ _ _ hand
    exact List.mem_map.mpr ⟨(h, fs, more), hmem, rfl⟩
  have hv : validate env.defaultHostname
      [("hosts", setAll (sequencedAssignments entries) ([] : Hosts))] = none := by
    obtain ⟨e, he, hede⟩ := List.mem_map.mp hdef
    obtain ⟨h, fs, more⟩ := e
    simp only at hede
    subst hede
    obtain ⟨hfn, hfp, hfu, hft⟩ := hfields _ he
    obtain ⟨⟨ku, u⟩, hu1, hu2⟩ := List.mem_map.mp hfu
    obtain ⟨⟨kt, t⟩, ht1, ht2⟩ := List.mem_map.mp hft
    simp only at hu2 ht2
    subst hu2; subst ht2
    have hg := walkAuth_fieldNodes_get fs u t hfn hfp hu1 ht1
    simp only [validate, mapGet, if_true, Option.getD_some, hget _ fs more he, mapHas, hg]
    simp
  refine ⟨setAll (sequencedAssignments entries) [], hr, hv,
    migrateConfig_of_rebuild env fn _ w _ hr hv, ?_, ?_⟩
  · intro h hh
    rw [mapGet_setAll_of_not_mem _ _ _ (by rw [hkeys]; exact hh)]
    rfl
  · intro h fs more u t hmem hu ht
    obtain ⟨hfn, hfp, _, _⟩ := hfields _ hmem
    exact ⟨_, hget h fs more hmem, walkAuth_fieldNodes_get fs u t hfn hfp hu ht⟩

/-- Witness for C1 (amended): two hosts; the sequence of the second goes on after its
first element with another field mapping (`user: hubot`) and a stray scalar, and the
entry rebuilt for it is that of the first element. -/
theorem migrateConfig_listed_layout_witness :
    ((∀ e ∈ sampleSequencedEntries, e.1 ≠ "") ∧
      (sampleSequencedEntries.map Prod.fst).Nodup ∧
      sampleEnv.defaultHostname ∈ sampleSequencedEntries.map Prod.fst) ∧
    rebuild (sequencedLegacyDoc sampleSequencedEntries)
      = Run.ret [("hosts",
          [("example.com", [("user", "wronguser"), ("oauth_token", "NOTTHIS")]),
           ("github.com", [("user", "monalisa"), ("oauth_token", "OTOKEN")])])] ∧
    ∃ hosts : Hosts,
      rebuild (sequencedLegacyDoc sampleSequencedEntries) = Run.ret [("hosts", hosts)] ∧
      validate sampleEnv.defaultHostname [("hosts", hosts)] = none ∧
      migrateConfig sampleEnv "cfg" (sequencedLegacyDoc sampleSequencedEntries) sampleWorld =
        (match sampleEnv.marshal [("hosts", hosts)] with
         | .error m => (Run.ret (some (Err.yaml m)), sampleWorld)
         | .ok newConfig =>
           (Run.ret (replaceFile "cfg" newConfig sampleWorld).1,
            (replaceFile "cfg" newConfig sampleWorld).2)) ∧
      (∀ h, h ∉ sampleSequencedEntries.map Prod.fst → mapGet hosts h = none) ∧
      (∀ h fs more u t, (h, fs, more) ∈ sampleSequencedEntries → ("user", u) ∈ fs →
        ("oauth_token", t) ∈ fs →
        ∃ m, mapGet hosts h = some m ∧
          ∀ k, mapGet m k =
            if k = "user" then some u else if k = "oauth_token" then some t else none) :=
  ⟨⟨by decide, by decide, by decide⟩, by decide,
   migrateConfig_listed_layout sampleEnv "cfg" sampleWorld sampleSequencedEntries
    (by decide) (by decide) (by decide) (by decide)⟩

/-! ## C2: a block without a `user` key that passes validation -/

/-- C2 fails on the code: in the legacy document `github.com: [{foo: user, bar: b,
oauth_token: OTOKEN}]` the default host's block has no key `user` (no key node carries
it), yet the inner walk takes the value node `user` for a field name, rebuilds
`user: bar`, passes validation, and `migrateConfig` returns nil after replacing the
file instead of returning an error. -/
theorem migrateConfig_accepts_block_without_user_key :
    (∀ n ∈ keyNodes (fieldNodes [("foo", "user"), ("bar", "b"), ("oauth_token", "OTOKEN")]),
        n.Value ≠ "user") ∧
      rebuild sampleNoUserKey
        = Run.ret [("hosts", [("github.com", [("user", "bar"), ("oauth_token", "OTOKEN")])])] ∧
      (migrateConfig sampleEnv "cfg" sampleNoUserKey sampleWorld).1 = Run.ret none ∧
      (migrateConfig sampleEnv "cfg" sampleNoUserKey sampleWorld).2.files "cfg"
        = some (asciiBytes
            "hosts:\n    github.com:\n        user: bar\n        oauth_token: OTOKEN\n") := by
  refine ⟨by decide, by decide, by decide, by decide⟩

/-! ## C3: validation errors leave the world untouched -/

theorem append_ne_of_head (a b s : String) (c d : Char) (ta tb : List Char)
    (ha : a.data = c :: ta) (hb : b.data = d :: tb) (hcd : c ≠ d) : a ++ s ≠ b := by
  intro h
  have h2 := congrArg String.data h
  rw [String.data_append, ha, hb] at h2
  exact hcd (List.cons.inj h2).1

theorem backup_error_not_validation (s : String) :
    Err.errorsNew ("failed to back up existing config: " ++ s) ∉ validationErrors := by
  intro h
  simp only [validationErrors, List.mem_cons, Err.errorsNew.injEq, List.mem_singleton,
    List.not_mem_nil, or_false] at h
  rcases h with h | h | h
  · exact append_ne_of_head _ _ s 'f' 'c' _ _ rfl rfl (by decide) h
  · exact append_ne_of_head _ _ s 'f' 'd' _ _ rfl rfl (by decide) h
  · exact append_ne_of_head _ _ s 'f' 'd' _ _ rfl rfl (by decide) h

theorem open_error_not_validation (s : String) :
    Err.errorsNew ("failed to open new config file for writing: " ++ s) ∉ validationErrors := by
  intro h
  simp only [validationErrors, List.mem_cons, Err.errorsNew.injEq, List.mem_singleton,
    List.not_mem_nil, or_false] at h
  rcases h with h | h | h
  · exact append_ne_of_head _ _ s 'f' 'c' _ _ rfl rfl (by decide) h
  · exact append_ne_of_head _ _ s 'f' 'd' _ _ rfl rfl (by decide) h
  · exact append_ne_of_head _ _ s 'f' 'd' _ _ rfl rfl (by decide) h

theorem shortWriteCheck_not_validation (n len : Nat) (err : Option OsErr) (e : Err)
    (h : shortWriteCheck n err len = some e) : e ∉ validationErrors := by
  unfold shortWriteCheck at h
  cases err with
  | none =>
    by_cases hn : n < len
    · simp [hn] at h
      subst h
      simp [validationErrors]
    · simp [hn] at h
  | some oe =>
    simp at h
    subst h
    simp [validationErrors]

theorem replaceFile_error_not_validation (fn : String) (b : Bytes) (w : World) (e : Err)
    (h : (replaceFile fn b w).1 = some e) : e ∉ validationErrors := by
  unfold replaceFile at h
  rcases hrn : osRename fn (fn ++ ".bak") w with ⟨r1, w1⟩
  rw [hrn] at h
  cases r1 with
  | some oe =>
    simp only [Option.some.injEq] at h
    subst h
    exact backup_error_not_validation _
  | none =>
    simp only at h
    rcases hop : osOpenFile fn w1 with ⟨r2, w2⟩
    rw [hop] at h
    cases r2 with
    | some oe =>
      simp only [Option.some.injEq] at h
      subst h
      exact open_error_not_validation _
    | none =>
      simp only at h
      exact shortWriteCheck_not_validation _ _ _ _ h

theorem validate_mem (dh : String) (d : ConfigData) (e : Err) (h : validate dh d = some e) :
    e ∈ validationErrors := by
  unfold validate at h
  split at h
  · simp at h; subst h; simp [validationErrors]
  · split at h
    · simp at h; subst h; simp [validationErrors]
    · split at h
      · simp at h; subst h; simp [validationErrors]
      · simp at h

theorem validate_none_iff (dh : String) (d : ConfigData) :
    validate dh d = none ↔
      ∃ hc, mapGet ((mapGet d "hosts").getD []) dh = some hc ∧
        mapHas hc "user" = true ∧ mapHas hc "oauth_token" = true := by
  unfold validate
  cases hg : mapGet ((mapGet d "hosts").getD []) dh with
  | none => simp
  | some hc =>
    simp only [Option.some.injEq, exists_eq_left']
    cases h1 : mapHas hc "user" <;> cases h2 : mapHas hc "oauth_token" <;> simp

/-- C3: whenever `migrateConfig` returns one of its three validation errors, the world
it leaves is the world it was given: the trace of mutating calls has not grown (no
rename, no create/truncate, no write), the file at the path has the bytes it had, and
the `.bak` path holds what it held (nothing, if there was no such file). -/
theorem migrateConfig_validation_error_untouched (env : Env) (fn : String) (root : Node)
    (w : World) (e : Err) (he : e ∈ validationErrors)
    (h : (migrateConfig env fn root w).1 = Run.ret (some e)) :
    (migrateConfig env fn root w).2 = w ∧
      (migrateConfig env fn root w).2.trace = w.trace ∧
      (migrateConfig env fn root w).2.files fn = w.files fn ∧
      (migrateConfig env fn root w).2.files (fn ++ ".bak") = w.files (fn ++ ".bak") := by
  have key : (migrateConfig env fn root w).2 = w := by
    unfold migrateConfig at h ⊢
    cases hr : rebuild root with
    | panic => rfl
    | ret d =>
      rw [hr] at h
      simp only at h ⊢
      cases hv : validate env.defaultHostname d with
      | some e' => rfl
      | none =>
        rw [hv] at h
        simp only at h ⊢
        cases hm : env.marshal d with
        | error m => rfl
        | ok b =>
          rw [hm] at h
          simp only [Run.ret.injEq] at h
          exact absurd he (replaceFile_error_not_validation fn b w e h)
  rw [key]
  exact ⟨rfl, rfl, rfl, rfl⟩

/-- Witness for C3: the direct-layout document is rejected with `missing user`. -/
theorem migrateConfig_validation_error_untouched_witness :
    (Err.errorsNew "default host configuration missing user" ∈ validationErrors ∧
      (migrateConfig sampleEnv "cfg" (directLegacyDoc sampleEntries) sampleWorld).1
        = Run.ret (some (Err.errorsNew "default host configuration missing user"))) ∧
    ((migrateConfig sampleEnv "cfg" (directLegacyDoc sampleEntries) sampleWorld).2 = sampleWorld ∧
      (migrateConfig sampleEnv "cfg" (directLegacyDoc sampleEntries) sampleWorld).2.trace
        = sampleWorld.trace ∧
      (migrateConfig sampleEnv "cfg" (directLegacyDoc sampleEntries) sampleWorld).2.files "cfg"
        = sampleWorld.files "cfg" ∧
      (migrateConfig sampleEnv "cfg" (directLegacyDoc sampleEntries) sampleWorld).2.files
          ("cfg" ++ ".bak") = sampleWorld.files ("cfg" ++ ".bak")) :=
  ⟨⟨by decide, by decide⟩,
   migrateConfig_validation_error_untouched sampleEnv "cfg" (directLegacyDoc sampleEntries)
    sampleWorld (Err.errorsNew "default host configuration missing user")
    (by decide) (by decide)⟩

/-! ## C4: the gate checks presence -/

/-- C4, as stated, fails: with `user: ""` (and likewise with `oauth_token: ""`) in the
default host's block, the rebuilt entry holds the empty string, validation passes, and
`migrateConfig` returns nil after replacing the file. -/
theorem migrateConfig_accepts_empty_values :
    rebuild (listedLegacyDoc [("github.com", [("user", ""), ("oauth_token", "OTOKEN")])])
        = Run.ret [("hosts", [("github.com", [("user", ""), ("oauth_token", "OTOKEN")])])] ∧
      (migrateConfig sampleEnv "cfg"
        (listedLegacyDoc [("github.com", [("user", ""), ("oauth_token", "OTOKEN")])])
        sampleWorld).1 = Run.ret none ∧
      (migrateConfig sampleEnv "cfg"
        (listedLegacyDoc [("github.com", [("user", "monalisa"), ("oauth_token", "")])])
        sampleWorld).1 = Run.ret none := by
  refine ⟨by decide, by decide, by decide⟩

/-- C4 (amended): for every legacy document tree on which the walk completes,
`migrateConfig` aborts with a validation error if and only if the rebuilt structure has
no entry for the default host, or that entry has no `user` or no `oauth_token`; the
gate requires both entries to be present, and an entry that is present with the empty
string as its value passes it. -/
theorem migrateConfig_gate_checks_presence (env : Env) (fn : String) (root : Node) (w : World)
    (d : ConfigData) (hr : rebuild root = Run.ret d) :
    (∃ e ∈ validationErrors, (migrateConfig env fn root w).1 = Run.ret (some e)) ↔
      ¬ ∃ hc, mapGet ((mapGet d "hosts").getD []) env.defaultHostname = some hc ∧
        (∃ u, mapGet hc "user" = some u) ∧ (∃ t, mapGet hc "oauth_token" = some t) := by
  have hiff : (∃ hc, mapGet ((mapGet d "hosts").getD []) env.defaultHostname = some hc ∧
        (∃ u, mapGet hc "user" = some u) ∧ (∃ t, mapGet hc "oauth_token" = some t)) ↔
      validate env.defaultHostname d = none := by
    rw [validate_none_iff]
    simp only [mapHas, Option.isSome_iff_exists]
  rw [hiff]
  unfold migrateConfig
  rw [hr]
  simp only
  cases hv : validate env.defaultHostname d with
  | some e' =>
    simp only [reduceCtorEq, not_false_eq_true, iff_true]
    exact ⟨e', validate_mem _ _ _ hv, rfl⟩
  | none =>
    simp only [not_true_eq_false, iff_false, not_exists, not_and]
    intro e he
    cases hm : env.marshal d with
    | error m =>
      simp only [Run.ret.injEq, Option.some.injEq]
      intro h
      subst h
      simp [validationErrors] at he
    | ok b =>
      simp only [Run.ret.injEq]
      intro h
      exact replaceFile_error_not_validation fn b w e h he

/-- Witness for C4 (amended): the walk completes on a document whose default host has
`user: ""`. -/
theorem migrateConfig_gate_checks_presence_witness :
    rebuild (listedLegacyDoc [("github.com", [("user", ""), ("oauth_token", "OTOKEN")])])
        = Run.ret [("hosts", [("github.com", [("user", ""), ("oauth_token", "OTOKEN")])])] ∧
    ((∃ e ∈ validationErrors, (migrateConfig sampleEnv "cfg"
        (listedLegacyDoc [("github.com", [("user", ""), ("oauth_token", "OTOKEN")])])
        sampleWorld).1 = Run.ret (some e)) ↔
      ¬ ∃ hc, mapGet ((mapGet
          ([("hosts", [("github.com", [("user", ""), ("oauth_token", "OTOKEN")])])] : ConfigData)
          "hosts").getD []) sampleEnv.defaultHostname = some hc ∧
        (∃ u, mapGet hc "user" = some u) ∧ (∃ t, mapGet hc "oauth_token" = some t)) :=
  ⟨by decide,
   migrateConfig_gate_checks_presence sampleEnv "cfg"
    (listedLegacyDoc [("github.com", [("user", ""), ("oauth_token", "OTOKEN")])])
    sampleWorld _ (by decide)⟩

/-! ## C5: what `isLegacy` scans -/

theorem isLegacyLoop_false_iff (l : List Node) :
    isLegacyLoop l = false ↔ ∃ n ∈ l, n.Value = "hosts" := by
  induction l with
  | nil => simp [isLegacyLoop]
  | cons v rest ih =>
    by_cases h : v.Value = "hosts"
    · simp [isLegacyLoop, h]
    · simp [isLegacyLoop, h, ih]

theorem mem_of_mem_keyNodes : ∀ (l : List Node) (n : Node), n ∈ keyNodes l → n ∈ l
  | [], _, h => by simp [keyNodes] at h
  | [_], _, h => by simpa [keyNodes] using h
  | k :: v :: t, n, h => by
    simp only [keyNodes, List.mem_cons] at h
    rcases h with h | h
    · simp [h]
    · have := mem_of_mem_keyNodes t n h
      simp [this]

/-- C5 fails on the code: in the map-rooted document `foo: hosts` no key node of the
top-level mapping has the value `hosts`, so the claim classifies it legacy, but
`isLegacy` ranges over every child of the mapping, meets the value node `hosts`, and
returns false. The part about a mapping with zero keys holds: it is classified
legacy. -/
theorem isLegacy_reads_value_nodes :
    MapRooted (document (mapping [scalar "foo", scalar "hosts"])) ∧
      (∀ n ∈ keyNodes [scalar "foo", scalar "hosts"], n.Value ≠ "hosts") ∧
      isLegacy (document (mapping [scalar "foo", scalar "hosts"])) = Run.ret false ∧
      isLegacy (document (mapping [scalar "foo", scalar "bar"])) = Run.ret true ∧
      isLegacy (document (mapping [])) = Run.ret true := by
  refine ⟨⟨_, _, rfl, rfl⟩, by decide, by decide, by decide, by decide⟩

/-! ## C6: migration is not re-entered on its own output -/

theorem mapHas_hosts_of_rebuild (root : Node) (d : ConfigData) (hr : rebuild root = Run.ret d) :
    mapHas d "hosts" = true := by
  unfold rebuild at hr
  cases hc : root.Content with
  | nil => rw [hc] at hr; simp at hr
  | cons c0 rest =>
    rw [hc] at hr
    simp only at hr
    cases hw : walkHosts c0.Content [] with
    | panic => rw [hw] at hr; simp at hr
    | ret hosts =>
      rw [hw] at hr
      simp only [Run.ret.injEq] at hr
      subst hr
      simp [mapHas, mapGet]

theorem shortWriteCheck_none (n len : Nat) (err : Option OsErr)
    (h : shortWriteCheck n err len = none) : err = none ∧ len ≤ n := by
  unfold shortWriteCheck at h
  cases err with
  | none =>
    by_cases hn : n < len
    · simp [hn] at h
    · exact ⟨rfl, Nat.le_of_not_lt hn⟩
  | some oe => simp at h

theorem replaceFile_ok (fn : String) (b : Bytes) (w : World)
    (h : (replaceFile fn b w).1 = none) :
    (replaceFile fn b w).2.files fn = some b ∧ (replaceFile fn b w).2.fault = w.fault := by
  unfold replaceFile at h ⊢
  unfold osRename at h ⊢
  cases hf : w.fault (Syscall.rename fn (fn ++ ".bak")) with
  | some oe => rw [hf] at h; simp at h
  | none =>
    rw [hf] at h
    simp only at h ⊢
    cases ho : w.files fn with
    | none => rw [ho] at h; simp at h
    | some old =>
      rw [ho] at h
      simp only at h ⊢
      unfold osOpenFile at h ⊢
      simp only at h ⊢
      cases hf2 : w.fault (Syscall.openFile fn) with
      | some oe => rw [hf2] at h; simp at h
      | none =>
        rw [hf2] at h
        simp only at h ⊢
        unfold fileWrite at h ⊢
        simp only at h ⊢
        have hs := shortWriteCheck_none _ _ _ h
        simp [List.take_of_length_le hs.2]

theorem migrateConfig_ok (env : Env) (fn : String) (root : Node) (w : World)
    (h : (migrateConfig env fn root w).1 = Run.ret none) :
    ∃ d b, rebuild root = Run.ret d ∧ validate env.defaultHostname d = none ∧
      env.marshal d = .ok b ∧
      (migrateConfig env fn root w).2.files fn = some b ∧
      (migrateConfig env fn root w).2.fault = w.fault := by
  unfold migrateConfig at h ⊢
  cases hr : rebuild root with
  | panic => rw [hr] at h; simp at h
  | ret d =>
    rw [hr] at h
    simp only at h ⊢
    cases hv : validate env.defaultHostname d with
    | some e => rw [hv] at h; simp at h
    | none =>
      rw [hv] at h
      simp only at h ⊢
      cases hm : env.marshal d with
      | error m => rw [hm] at h; simp at h
      | ok b =>
        rw [hm] at h
        simp only [Run.ret.injEq] at h
        have := replaceFile_ok fn b w h
        exact ⟨d, b, rfl, hv, hm, this.1, this.2⟩

/-- C6: for every tree on which `migrateConfig` succeeds, given a YAML library that
keeps top-level keys and a file that can be read back, the file written at the path
parses to a map-rooted tree whose top-level mapping has the key `hosts`, `isLegacy` on
it is false, and `ParseConfig` on the resulting world returns that tree's Config
without touching the world again: migration is not re-entered on its own output. -/
theorem migrated_file_is_current (env : Env) (fn : String) (root : Node) (w : World)
    (hcodec : TopKeysPreserved env)
    (hopen : w.fault (Syscall.osOpen fn) = none)
    (hread : w.fault (Syscall.readAll fn) = none)
    (hm : (migrateConfig env fn root w).1 = Run.ret none) :
    ∃ r c0 rest,
      (parseConfigFile env fn (migrateConfig env fn root w).2).2 = (some r, none) ∧
      r.Content = c0 :: rest ∧ c0.Kind = Kind.MappingNode ∧
      (∃ n ∈ keyNodes c0.Content, n.Value = "hosts") ∧
      isLegacy r = Run.ret false ∧
      ParseConfig env fn (migrateConfig env fn root w).2 =
        (Run.ret (some (NewConfig r), none), (migrateConfig env fn root w).2) := by
  obtain ⟨d, b, hr, _, hmar, hfile, hfault⟩ := migrateConfig_ok env fn root w hm
  obtain ⟨r, c0, rest, hun, hcont, hkind, hkeys⟩ := hcodec d b hmar
  obtain ⟨n, hn, hnv⟩ := hkeys "hosts" (mapHas_hosts_of_rebuild root d hr)
  have hleg : isLegacy r = Run.ret false := by
    unfold isLegacy
    rw [hcont]
    simp only [Run.ret.injEq]
    exact (isLegacyLoop_false_iff _).mpr ⟨n, mem_of_mem_keyNodes _ _ hn, hnv⟩
  have hparse : parseConfigFile env fn (migrateConfig env fn root w).2
      = (some b, some r, none) := by
    unfold parseConfigFile ReadConfigFile
    rw [hfault, hopen, hfile, hread]
    simp only [hun, hcont, hkind, ne_eq, not_true_eq_false, if_false]
  refine ⟨r, c0, rest, by rw [hparse], hcont, hkind, ⟨n, hn, hnv⟩, hleg, ?_⟩
  unfold ParseConfig
  rw [hparse]
  simp only [hleg]

theorem strictEnv_topKeysPreserved : TopKeysPreserved strictEnv := by
  intro d b hmar
  have hd : d = sampleData := by
    by_contra hne
    simp [strictEnv, hne] at hmar
  subst hd
  have hb : b = sampleCurrentBytes := by
    have : strictEnv.marshal sampleData = .ok sampleCurrentBytes := by rfl
    rw [this] at hmar
    injection hmar with hmar
    exact hmar.symm
  subst hb
  refine ⟨sampleCurrentTree, mapping [scalar "hosts", mapping (directHostNodes
    [("github.com", [("user", "monalisa"), ("oauth_token", "OTOKEN")])])], [], by rfl,
    rfl, rfl, ?_⟩
  intro k hk
  have hk2 : k = "hosts" := by
    by_contra hne
    have hne2 : ¬ "hosts" = k := fun h => hne h.symm
    simp [mapHas, mapGet, sampleData, hne2] at hk
  subst hk2
  exact ⟨scalar "hosts", by simp [mapping, Node.Content, keyNodes], rfl⟩

/-- Witness for C6: the sample legacy file, migrated in the sample world. -/
theorem migrated_file_is_current_witness :
    (migrateConfig strictEnv "cfg" sampleLegacyTree sampleWorld).1 = Run.ret none ∧
    ∃ r c0 rest,
      (parseConfigFile strictEnv "cfg"
        (migrateConfig strictEnv "cfg" sampleLegacyTree sampleWorld).2).2 = (some r, none) ∧
      r.Content = c0 :: rest ∧ c0.Kind = Kind.MappingNode ∧
      (∃ n ∈ keyNodes c0.Content, n.Value = "hosts") ∧
      isLegacy r = Run.ret false ∧
      ParseConfig strictEnv "cfg" (migrateConfig strictEnv "cfg" sampleLegacyTree sampleWorld).2 =
        (Run.ret (some (NewConfig r), none),
          (migrateConfig strictEnv "cfg" sampleLegacyTree sampleWorld).2) :=
  ⟨by decide,
   migrated_file_is_current strictEnv "cfg" sampleLegacyTree sampleWorld
    strictEnv_topKeysPreserved (by decide) (by decide) (by decide)⟩

/-! ## C7, C8: lookups on a current-format document -/

theorem findEntry_fieldNodes (fs : List (String × String)) (k v : String)
    (hnd : (fs.map Prod.fst).Nodup) (hmem : (k, v) ∈ fs) :
    findEntry (fieldNodes fs) k = some (scalar v) := by
  induction fs with
  | nil => simp at hmem
  | cons p t ih =>
    obtain ⟨k₀, v₀⟩ := p
    simp only [List.map_cons, List.nodup_cons] at hnd
    rcases List.mem_cons.mp hmem with heq | htail
    · injection heq with h1 h2
      subst h1; subst h2
      simp [fieldNodes, findEntry, scalar_Value]
    · have hne : k₀ ≠ k := by
        intro h
        subst h
        exact hnd.1 (List.mem_map.mpr ⟨(k₀, v), htail, rfl⟩)
      simp [fieldNodes, findEntry, scalar_Value, hne, ih hnd.2 htail]

theorem findEntry_directHostNodes (entries : List (String × List (String × String)))
    (h : String) (fs : List (String × String))
    (hnd : (entries.map Prod.fst).Nodup) (hmem : (h, fs) ∈ entries) :
    findEntry (directHostNodes entries) h = some (mapping (fieldNodes fs)) := by
  induction entries with
  | nil => simp at hmem
  | cons p t ih =>
    obtain ⟨h₀, fs₀⟩ := p
    simp only [List.map_cons, List.nodup_cons] at hnd
    rcases List.mem_cons.mp hmem with heq | htail
    · injection heq with h1 h2
      subst h1; subst h2
      simp [directHostNodes, findEntry, scalar_Value]
    · have hne : h₀ ≠ h := by
        intro hh
        subst hh
        exact hnd.1 (List.mem_map.mpr ⟨(h₀, fs), htail, rfl⟩)
      simp [directHostNodes, findEntry, scalar_Value, hne, ih hnd.2 htail]

theorem findEntry_directHostNodes_none (entries : List (String × List (String × String)))
    (h : String) (hnot : h ∉ entries.map Prod.fst) :
    findEntry (directHostNodes entries) h = none := by
  induction entries with
  | nil => simp [directHostNodes, findEntry]
  | cons p t ih =>
    obtain ⟨h₀, fs₀⟩ := p
    simp only [List.map_cons, List.mem_cons, not_or] at hnot
    have hne : h₀ ≠ h := fun hh => hnot.1 hh.symm
    simp [directHostNodes, findEntry, scalar_Value, hne, ih hnot.2]

theorem ParseConfig_currentDoc (env : Env) (fn : String) (w : World) (b : Bytes)
    (entries : List (String × List (String × String)))
    (hread : ReadConfigFile fn w = .ok b)
    (hparse : env.unmarshal b = .ok (currentDoc entries)) :
    ParseConfig env fn w = (Run.ret (some (NewConfig (currentDoc entries)), none), w) := by
  have hp : parseConfigFile env fn w = (some b, some (currentDoc entries), none) := by
    unfold parseConfigFile
    rw [hread]
    simp only [hparse]
    simp [currentDoc, document, mapping, Node.Content, Node.Kind]
  unfold ParseConfig
  rw [hp]
  simp [isLegacy, currentDoc, document, mapping, Node.Content, isLegacyLoop, scalar_Value]

theorem Get_currentDoc (entries : List (String × List (String × String)))
    (h : String) (fs : List (String × String)) (k v : String)
    (hnd : (entries.map Prod.fst).Nodup) (hmem : (h, fs) ∈ entries)
    (hfnd : (fs.map Prod.fst).Nodup) (hk : (k, v) ∈ fs) :
    (NewConfig (currentDoc entries)).Get h k = .ok v := by
  simp [Config.Get, Config.configForHost, NewConfig, currentDoc, document, mapping, Node.Content,
    findEntry, scalar_Value, findEntry_directHostNodes entries h fs hnd hmem,
    findEntry_fieldNodes fs k v hfnd hk]

/-- C7: for every current-format document (a top-level `hosts` mapping over distinct
hosts) that the file at the path parses to, and every host `h` in it whose field
mapping (with distinct keys) carries `user: u` and `oauth_token: t`, `ParseConfig`
returns a Config and no error, leaves the world as it was (no migration), and the
Config answers `Get(h, "user") = u` and `Get(h, "oauth_token") = t`, wherever `h`
stands among the hosts. -/
theorem ParseConfig_current_lookup (env : Env) (fn : String) (w : World) (b : Bytes)
    (entries : List (String × List (String × String)))
    (h : String) (fs : List (String × String)) (u t : String)
    (hread : ReadConfigFile fn w = .ok b)
    (hparse : env.unmarshal b = .ok (currentDoc entries))
    (hnd : (entries.map Prod.fst).Nodup) (hmem : (h, fs) ∈ entries)
    (hfnd : (fs.map Prod.fst).Nodup)
    (hu : ("user", u) ∈ fs) (ht : ("oauth_token", t) ∈ fs) :
    ∃ c : Config, ParseConfig env fn w = (Run.ret (some c, none), w) ∧
      c.Get h "user" = .ok u ∧ c.Get h "oauth_token" = .ok t :=
  ⟨NewConfig (currentDoc entries), ParseConfig_currentDoc env fn w b entries hread hparse,
    Get_currentDoc entries h fs "user" u hnd hmem hfnd hu,
    Get_currentDoc entries h fs "oauth_token" t hnd hmem hfnd ht⟩

/-- Witness for C7: the two-host file of the tests; `github.com` comes second. -/
theorem ParseConfig_current_lookup_witness :
    ∃ c : Config, ParseConfig sampleEnv "two" sampleWorld = (Run.ret (some c, none), sampleWorld) ∧
      c.Get "github.com" "user" = .ok "monalisa" ∧
      c.Get "github.com" "oauth_token" = .ok "OTOKEN" :=
  ParseConfig_current_lookup sampleEnv "two" sampleWorld sampleTwoHostsBytes sampleTwoHosts
    "github.com" [("user", "monalisa"), ("oauth_token", "OTOKEN")] "monalisa" "OTOKEN"
    (by rfl) (by rfl) (by decide) (by decide) (by decide) (by decide) (by decide)

/-- C8: for every current-format document that the file at the path parses to and
every host `h` that is not a key under `hosts`, `ParseConfig` succeeds and the host
lookup on the returned Config (and with it `Get`) fails with the error
`could not find config entry for "h"`. -/
theorem ParseConfig_current_host_absent (env : Env) (fn : String) (w : World) (b : Bytes)
    (entries : List (String × List (String × String))) (h : String)
    (hread : ReadConfigFile fn w = .ok b)
    (hparse : env.unmarshal b = .ok (currentDoc entries))
    (hnot : h ∉ entries.map Prod.fst) :
    ∃ c : Config, ParseConfig env fn w = (Run.ret (some c, none), w) ∧
      c.configForHost h
        = .error (Err.errorsNew ("could not find config entry for \"" ++ h ++ "\"")) ∧
      ∀ k, c.Get h k
        = .error (Err.errorsNew ("could not find config entry for \"" ++ h ++ "\"")) := by
  refine ⟨NewConfig (currentDoc entries), ParseConfig_currentDoc env fn w b entries hread hparse,
    ?_, ?_⟩
  · simp [Config.configForHost, NewConfig, currentDoc, document, mapping, Node.Content,
      findEntry, scalar_Value, findEntry_directHostNodes_none entries h hnot, hostNotFound]
  · intro k
    simp [Config.Get, Config.configForHost, NewConfig, currentDoc, document, mapping,
      Node.Content, findEntry, scalar_Value, findEntry_directHostNodes_none entries h hnot,
      hostNotFound]

/-- Witness for C8: the one-host file of the tests has no entry for `example.org`. -/
theorem ParseConfig_current_host_absent_witness :
    ∃ c : Config, ParseConfig sampleEnv "cur" sampleWorld = (Run.ret (some c, none), sampleWorld) ∧
      c.configForHost "example.org"
        = .error (Err.errorsNew ("could not find config entry for \"" ++ "example.org" ++ "\"")) ∧
      ∀ k, c.Get "example.org" k
        = .error (Err.errorsNew ("could not find config entry for \"" ++ "example.org" ++ "\"")) :=
  ParseConfig_current_host_absent sampleEnv "cur" sampleWorld sampleCurrentBytes
    [("github.com", [("user", "monalisa"), ("oauth_token", "OTOKEN")])] "example.org"
    (by rfl) (by rfl) (by decide)

/-! ## C9: the structural checks of `parseConfigFile` -/

theorem parseConfigFile_of_parsed (env : Env) (fn : String) (w : World) (data : Bytes)
    (root : Node) (hread : ReadConfigFile fn w = .ok data)
    (hparse : env.unmarshal data = .ok root) :
    parseConfigFile env fn w =
      (match root.Content with
       | [] => (some data, some root, some (Err.errorsNew "malformed config"))
       | c0 :: _ =>
         if c0.Kind ≠ Kind.MappingNode then
           (some data, some root, some (Err.errorsNew "expected a top level map"))
         else (some data, some root, none)) := by
  unfold parseConfigFile
  rw [hread]
  simp only [hparse]

/-- C9: for every byte string read from the path that parses to a root, the error of
`parseConfigFile` is nil if and only if the root has a first content node and that
node is a mapping; it is `malformed config` when the root has no content node and
`expected a top level map` when the first content node is not a mapping. Hence
`ParseConfig` stops with that error, the world untouched, unless the tree is
map-rooted, and on a map-rooted tree `isLegacy` returns a boolean. -/
theorem parseConfigFile_structural (env : Env) (fn : String) (w : World) (data : Bytes)
    (root : Node) (hread : ReadConfigFile fn w = .ok data)
    (hparse : env.unmarshal data = .ok root) :
    ((parseConfigFile env fn w).2.2 = none ↔ MapRooted root) ∧
    (root.Content = [] →
      parseConfigFile env fn w
        = (some data, some root, some (Err.errorsNew "malformed config"))) ∧
    (∀ c0 rest, root.Content = c0 :: rest → c0.Kind ≠ Kind.MappingNode →
      parseConfigFile env fn w
        = (some data, some root, some (Err.errorsNew "expected a top level map"))) ∧
    (MapRooted root →
      parseConfigFile env fn w = (some data, some root, none) ∧
        ∃ legacy, isLegacy root = Run.ret legacy) ∧
    (¬ MapRooted root →
      ∃ e, (parseConfigFile env fn w).2.2 = some e ∧
        ParseConfig env fn w = (Run.ret (none, some e), w)) := by
  have hp := parseConfigFile_of_parsed env fn w data root hread hparse
  cases hc : root.Content with
  | nil =>
    rw [hc] at hp
    simp only at hp
    have hnot : ¬ MapRooted root := by
      rintro ⟨c0, rest, h, _⟩
      rw [hc] at h
      exact List.noConfusion h
    refine ⟨?_, fun _ => hp, ?_, fun h => absurd h hnot, fun _ => ⟨_, by rw [hp], ?_⟩⟩
    · rw [hp]
      simp [hnot]
    · intro c0 rest h
      exact List.noConfusion h
    · unfold ParseConfig
      rw [hp]
  | cons c0 rest =>
    rw [hc] at hp
    simp only at hp
    by_cases hk : c0.Kind = Kind.MappingNode
    · have hm : MapRooted root := ⟨c0, rest, hc, hk⟩
      simp only [hk, ne_eq, not_true_eq_false, if_false] at hp
      refine ⟨?_, ?_, ?_, fun _ => ⟨hp, ?_⟩, fun h => absurd hm h⟩
      · rw [hp]
        simp [hm]
      · intro h
        exact List.noConfusion h
      · intro c1 rest1 h hne
        injection h with h1 _
        subst h1
        exact absurd hk hne
      · exact ⟨isLegacyLoop c0.Content, by simp [isLegacy, hc]⟩
    · have hnot : ¬ MapRooted root := by
        rintro ⟨c1, rest1, h, hk1⟩
        rw [hc] at h
        injection h with h1 _
        subst h1
        exact hk hk1
      simp only [ne_eq, hk, not_false_eq_true, if_true] at hp
      refine ⟨?_, ?_, fun _ _ _ _ => hp, fun h => absurd h hnot, fun _ => ⟨_, by rw [hp], ?_⟩⟩
      · rw [hp]
        simp [hnot]
      · intro h
        exact List.noConfusion h
      · unfold ParseConfig
        rw [hp]

/-- Witness for C9: the sequence-rooted sample file is read and parses. -/
theorem parseConfigFile_structural_witness :
    parseConfigFile sampleEnv "list" sampleWorld
        = (some sampleListBytes, some (document (sequence [scalar "a", scalar "b"])),
            some (Err.errorsNew "expected a top level map")) ∧
      parseConfigFile sampleEnv "empty" sampleWorld
        = (some [], some (Node.mk Kind.ZeroKind "" []),
            some (Err.errorsNew "malformed config")) ∧
      parseConfigFile sampleEnv "cur" sampleWorld
        = (some sampleCurrentBytes, some sampleCurrentTree, none) :=
  ⟨(parseConfigFile_structural sampleEnv "list" sampleWorld sampleListBytes
      (document (sequence [scalar "a", scalar "b"])) (by rfl) (by rfl)).2.2.1
      (sequence [scalar "a", scalar "b"]) [] rfl (by decide),
   (parseConfigFile_structural sampleEnv "empty" sampleWorld []
      (Node.mk Kind.ZeroKind "" []) (by rfl) (by rfl)).2.1 rfl,
   ((parseConfigFile_structural sampleEnv "cur" sampleWorld sampleCurrentBytes
      sampleCurrentTree (by rfl) (by rfl)).2.2.2.1 ⟨_, _, rfl, rfl⟩).1⟩

/-! ## C10: read failures -/

/-- C10: if the initial read of the path fails with error `e`, `parseConfigFile`
returns `e` itself with no bytes and no tree, and `ParseConfig` returns `e` itself
with no Config and the world untouched; `parseOrSetupConfigFile` returns what the
setup flow returns exactly when `ParseConfig` returned an error that is classified as
file-does-not-exist, and otherwise returns the result of `ParseConfig` unchanged. -/
theorem read_failure_propagates (env : Env) (fn : String) (w : World) :
    (∀ e, ReadConfigFile fn w = .error e →
      parseConfigFile env fn w = (none, none, some e) ∧
      ParseConfig env fn w = (Run.ret (none, some e), w) ∧
      parseOrSetupConfigFile env fn w =
        if e.isNotExist = true then env.setupConfigFile fn w
        else (Run.ret (none, some e), w)) ∧
    (∀ c e w1, ParseConfig env fn w = (Run.ret (c, some e), w1) →
      parseOrSetupConfigFile env fn w =
        if e.isNotExist = true then env.setupConfigFile fn w1
        else (Run.ret (c, some e), w1)) ∧
    (∀ c w1, ParseConfig env fn w = (Run.ret (c, none), w1) →
      parseOrSetupConfigFile env fn w = (Run.ret (c, none), w1)) ∧
    (∀ w1, ParseConfig env fn w = (Run.panic, w1) →
      parseOrSetupConfigFile env fn w = (Run.panic, w1)) := by
  have h2 : ∀ c e w1, ParseConfig env fn w = (Run.ret (c, some e), w1) →
      parseOrSetupConfigFile env fn w =
        if e.isNotExist = true then env.setupConfigFile fn w1
        else (Run.ret (c, some e), w1) := by
    intro c e w1 h
    unfold parseOrSetupConfigFile
    rw [h]
  refine ⟨?_, h2, ?_, ?_⟩
  · intro e he
    have hp : parseConfigFile env fn w = (none, none, some e) := by
      unfold parseConfigFile
      rw [he]
    have hc : ParseConfig env fn w = (Run.ret (none, some e), w) := by
      unfold ParseConfig
      rw [hp]
    exact ⟨hp, hc, h2 _ _ _ hc⟩
  · intro c w1 h
    unfold parseOrSetupConfigFile
    rw [h]
  · intro w1 h
    unfold parseOrSetupConfigFile
    rw [h]

/-- Witness for C10: no file at `nope` in the sample world. -/
theorem read_failure_propagates_witness :
    ReadConfigFile "nope" sampleWorld
        = .error (Err.os ⟨"open nope: no such file or directory", true⟩) ∧
      parseConfigFile sampleEnv "nope" sampleWorld
        = (none, none, some (Err.os ⟨"open nope: no such file or directory", true⟩)) ∧
      ParseConfig sampleEnv "nope" sampleWorld
        = (Run.ret (none, some (Err.os ⟨"open nope: no such file or directory", true⟩)),
            sampleWorld) ∧
      parseOrSetupConfigFile sampleEnv "nope" sampleWorld
        = sampleEnv.setupConfigFile "nope" sampleWorld :=
  ⟨by rfl,
   ((read_failure_propagates sampleEnv "nope" sampleWorld).1 _ (by rfl)).1,
   ((read_failure_propagates sampleEnv "nope" sampleWorld).1 _ (by rfl)).2.1,
   (((read_failure_propagates sampleEnv "nope" sampleWorld).1
      (Err.os ⟨"open nope: no such file or directory", true⟩) (by rfl)).2.2).trans
      (if_pos rfl)⟩

/-! ## C11: the files after a successful migration -/

theorem append_bak_ne (fn : String) : fn ++ ".bak" ≠ fn := by
  intro h
  have h2 := congrArg String.length h
  rw [String.length_append] at h2
  have h3 : (".bak" : String).length = 4 := by decide
  omega

theorem replaceFile_ok_files (fn : String) (b : Bytes) (w : World)
    (h : (replaceFile fn b w).1 = none) :
    ∃ old, w.files fn = some old ∧
      (replaceFile fn b w).2.files (fn ++ ".bak") = some old ∧
      (replaceFile fn b w).2.files fn = some b ∧
      ∀ q, q ≠ fn → q ≠ fn ++ ".bak" → (replaceFile fn b w).2.files q = w.files q := by
  unfold replaceFile at h ⊢
  unfold osRename at h ⊢
  cases hf : w.fault (Syscall.rename fn (fn ++ ".bak")) with
  | some oe => rw [hf] at h; simp at h
  | none =>
    rw [hf] at h
    simp only at h ⊢
    cases ho : w.files fn with
    | none => rw [ho] at h; simp at h
    | some old =>
      rw [ho] at h
      simp only at h ⊢
      unfold osOpenFile at h ⊢
      simp only at h ⊢
      cases hf2 : w.fault (Syscall.openFile fn) with
      | some oe => rw [hf2] at h; simp at h
      | none =>
        rw [hf2] at h
        simp only at h ⊢
        unfold fileWrite at h ⊢
        simp only at h ⊢
        have hs := shortWriteCheck_none _ _ _ h
        refine ⟨old, rfl, ?_, ?_, ?_⟩
        · simp [append_bak_ne fn]
        · simp [List.take_of_length_le hs.2]
        · intro q hq1 hq2
          simp [hq1, hq2]

/-- C11: over the path-to-bytes file state, for every tree and path `p` on which
`migrateConfig` returns nil, there were bytes at `p` before the call, afterwards
`p.bak` holds exactly those bytes, `p` holds exactly the bytes serialized from the
rebuilt current-layout structure, and every other path holds what it held. -/
theorem migrateConfig_ok_files (env : Env) (p : String) (root : Node) (w : World)
    (h : (migrateConfig env p root w).1 = Run.ret none) :
    ∃ d b old, rebuild root = Run.ret d ∧ env.marshal d = .ok b ∧ w.files p = some old ∧
      (migrateConfig env p root w).2.files (p ++ ".bak") = some old ∧
      (migrateConfig env p root w).2.files p = some b ∧
      ∀ q, q ≠ p → q ≠ p ++ ".bak" → (migrateConfig env p root w).2.files q = w.files q := by
  unfold migrateConfig at h ⊢
  cases hr : rebuild root with
  | panic => rw [hr] at h; simp at h
  | ret d =>
    rw [hr] at h
    simp only at h ⊢
    cases hv : validate env.defaultHostname d with
    | some e => rw [hv] at h; simp at h
    | none =>
      rw [hv] at h
      simp only at h ⊢
      cases hm : env.marshal d with
      | error m => rw [hm] at h; simp at h
      | ok b =>
        rw [hm] at h
        simp only [Run.ret.injEq] at h
        obtain ⟨old, h1, h2, h3, h4⟩ := replaceFile_ok_files p b w h
        exact ⟨d, b, old, rfl, hm, h1, h2, h3, h4⟩

/-- Witness for C11: the sample legacy file at `cfg`, migrated in the sample world. -/
theorem migrateConfig_ok_files_witness :
    (migrateConfig sampleEnv "cfg" sampleLegacyTree sampleWorld).1 = Run.ret none ∧
    ∃ d b old, rebuild sampleLegacyTree = Run.ret d ∧ sampleEnv.marshal d = .ok b ∧
      sampleWorld.files "cfg" = some old ∧
      (migrateConfig sampleEnv "cfg" sampleLegacyTree sampleWorld).2.files ("cfg" ++ ".bak")
        = some old ∧
      (migrateConfig sampleEnv "cfg" sampleLegacyTree sampleWorld).2.files "cfg" = some b ∧
      ∀ q, q ≠ "cfg" → q ≠ "cfg" ++ ".bak" →
        (migrateConfig sampleEnv "cfg" sampleLegacyTree sampleWorld).2.files q
          = sampleWorld.files q :=
  ⟨by decide, migrateConfig_ok_files sampleEnv "cfg" sampleLegacyTree sampleWorld (by decide)⟩

/-! ## C12: what the write step returns -/

theorem replaceFile_write_step (fn : String) (data old : Bytes) (w : World)
    (hrn : w.fault (Syscall.rename fn (fn ++ ".bak")) = none)
    (hold : w.files fn = some old)
    (hop : w.fault (Syscall.openFile fn) = none) :
    (replaceFile fn data w).1 =
        shortWriteCheck (w.writeOutcome fn data).1 (w.writeOutcome fn data).2 data.length ∧
      (replaceFile fn data w).2.trace =
        w.trace ++ [Syscall.rename fn (fn ++ ".bak"), Syscall.openFile fn,
          Syscall.write fn data] := by
  unfold replaceFile osRename
  rw [hrn, hold]
  simp only
  unfold osOpenFile
  simp only [hop]
  unfold fileWrite
  simp

theorem WriteConfigFile_write_step (env : Env) (fn : String) (data : Bytes) (w : World)
    (hop : w.fault (Syscall.openFile env.configFile) = none) :
    (WriteConfigFile env fn data w).1 =
      shortWriteCheck (w.writeOutcome env.configFile data).1
        (w.writeOutcome env.configFile data).2 data.length := by
  unfold WriteConfigFile osOpenFile
  simp only [hop]
  unfold fileWrite
  simp

theorem shortWriteCheck_cases (n len : Nat) (err : Option OsErr) :
    (err = none → n < len → shortWriteCheck n err len = some Err.shortWrite) ∧
    (err = none → n = len → shortWriteCheck n err len = none) ∧
    (∀ e, err = some e → shortWriteCheck n err len = some (Err.os e)) := by
  refine ⟨?_, ?_, ?_⟩
  · intro h1 h2
    subst h1
    simp [shortWriteCheck, h2]
  · intro h1 h2
    subst h1; subst h2
    simp [shortWriteCheck]
  · intro e h1
    subst h1
    simp [shortWriteCheck]

/-- C12: in the write step of `migrateConfig` (reached once validation, serialization,
rename and create have succeeded) and likewise in `WriteConfigFile` (once its open has
succeeded), for every data and every outcome `(n, err)` of the write call: a nil `err`
with `n < len(data)` returns the short-write error, a nil `err` with `n = len(data)`
returns nil, and a non-nil `err` is returned itself. -/
theorem write_outcome_reported (env : Env) (fn : String) (root : Node) (w : World)
    (d : ConfigData) (data old : Bytes)
    (hr : rebuild root = Run.ret d) (hv : validate env.defaultHostname d = none)
    (hmar : env.marshal d = .ok data)
    (hrn : w.fault (Syscall.rename fn (fn ++ ".bak")) = none)
    (hold : w.files fn = some old)
    (hop : w.fault (Syscall.openFile fn) = none) :
    (((w.writeOutcome fn data).2 = none → (w.writeOutcome fn data).1 < data.length →
        (migrateConfig env fn root w).1 = Run.ret (some Err.shortWrite)) ∧
      ((w.writeOutcome fn data).2 = none → (w.writeOutcome fn data).1 = data.length →
        (migrateConfig env fn root w).1 = Run.ret none) ∧
      (∀ e, (w.writeOutcome fn data).2 = some e →
        (migrateConfig env fn root w).1 = Run.ret (some (Err.os e)))) ∧
    (∀ (fn2 : String) (data2 : Bytes) (w2 : World),
      w2.fault (Syscall.openFile env.configFile) = none →
      ((w2.writeOutcome env.configFile data2).2 = none →
        (w2.writeOutcome env.configFile data2).1 < data2.length →
        (WriteConfigFile env fn2 data2 w2).1 = some Err.shortWrite) ∧
      ((w2.writeOutcome env.configFile data2).2 = none →
        (w2.writeOutcome env.configFile data2).1 = data2.length →
        (WriteConfigFile env fn2 data2 w2).1 = none) ∧
      (∀ e, (w2.writeOutcome env.configFile data2).2 = some e →
        (WriteConfigFile env fn2 data2 w2).1 = some (Err.os e))) := by
  have hmig : (migrateConfig env fn root w).1 =
      Run.ret (shortWriteCheck (w.writeOutcome fn data).1 (w.writeOutcome fn data).2
        data.length) := by
    rw [migrateConfig_of_rebuild env fn root w d hr hv, hmar]
    simp only [(replaceFile_write_step fn data old w hrn hold hop).1]
  have hc := shortWriteCheck_cases (w.writeOutcome fn data).1 data.length
    (w.writeOutcome fn data).2
  refine ⟨⟨?_, ?_, ?_⟩, ?_⟩
  · intro h1 h2
    rw [hmig, hc.1 h1 h2]
  · intro h1 h2
    rw [hmig, hc.2.1 h1 h2]
  · intro e h1
    rw [hmig, hc.2.2 e h1]
  · intro fn2 data2 w2 hop2
    have hw := WriteConfigFile_write_step env fn2 data2 w2 hop2
    have hc2 := shortWriteCheck_cases (w2.writeOutcome env.configFile data2).1 data2.length
      (w2.writeOutcome env.configFile data2).2
    refine ⟨?_, ?_, ?_⟩
    · intro h1 h2
      rw [hw, hc2.1 h1 h2]
    · intro h1 h2
      rw [hw, hc2.2.1 h1 h2]
    · intro e h1
      rw [hw, hc2.2.2 e h1]

/-- Witness for C12: the sample legacy file in the world whose writes stop one byte
short. -/
theorem write_outcome_reported_witness :
    (migrateConfig sampleEnv "cfg" sampleLegacyTree shortWriteWorld).1
        = Run.ret (some Err.shortWrite) ∧
      (WriteConfigFile sampleEnv "cfg" sampleCurrentBytes shortWriteWorld).1
        = some Err.shortWrite :=
  ⟨(write_outcome_reported sampleEnv "cfg" sampleLegacyTree shortWriteWorld sampleData
      sampleCurrentBytes sampleLegacyBytes (by decide) (by decide) (by rfl) (by decide)
      (by decide) (by decide)).1.1 (by decide) (by decide),
   ((write_outcome_reported sampleEnv "cfg" sampleLegacyTree shortWriteWorld sampleData
      sampleCurrentBytes sampleLegacyBytes (by decide) (by decide) (by rfl) (by decide)
      (by decide) (by decide)).2 "cfg" sampleCurrentBytes shortWriteWorld (by decide)).1
      (by decide) (by decide)⟩

/-! ## C13: the backup-then-replace sequence -/

/-- C13, as stated, fails for the write step: when the write call reports an error,
`migrateConfig` returns that very error, an operating-system error, not an error
wrapping it with the name of the step (no `errors.New`/`fmt.Errorf` value). -/
theorem migrateConfig_write_error_not_wrapped :
    (fullDiskWorld.writeOutcome "cfg" sampleCurrentBytes).2
        = some ⟨"write cfg: no space left on device", false⟩ ∧
      (migrateConfig sampleEnv "cfg" sampleLegacyTree fullDiskWorld).1
        = Run.ret (some (Err.os ⟨"write cfg: no space left on device", false⟩)) ∧
      ∀ msg, (migrateConfig sampleEnv "cfg" sampleLegacyTree fullDiskWorld).1
        ≠ Run.ret (some (Err.errorsNew msg)) := by
  have h : (migrateConfig sampleEnv "cfg" sampleLegacyTree fullDiskWorld).1
      = Run.ret (some (Err.os ⟨"write cfg: no space left on device", false⟩)) := by decide
  refine ⟨by decide, h, ?_⟩
  intro msg
  rw [h]
  simp

/-- C13 (amended): once validation and serialization have succeeded, the steps of
`migrateConfig` run in the order rename, create, write, and a failing step aborts the
remainder: a rename failure `e` yields `failed to back up existing config: e`, with
neither create nor write attempted and no file changed; a create failure `e` yields
`failed to open new config file for writing: e`, with no write attempted; a write
failure is returned as the write call's own error (or the short-write error), with
no step context added. -/
theorem migrateConfig_replace_sequence (env : Env) (fn : String) (root : Node) (w : World)
    (d : ConfigData) (b : Bytes)
    (hr : rebuild root = Run.ret d) (hv : validate env.defaultHostname d = none)
    (hmar : env.marshal d = .ok b) :
    (∀ e, (osRename fn (fn ++ ".bak") w).1 = some e →
      (migrateConfig env fn root w).1 =
        Run.ret (some (Err.errorsNew ("failed to back up existing config: " ++ e.text))) ∧
      (migrateConfig env fn root w).2.trace = w.trace ++ [Syscall.rename fn (fn ++ ".bak")] ∧
      (migrateConfig env fn root w).2.files = w.files) ∧
    ((osRename fn (fn ++ ".bak") w).1 = none →
      ∀ e, (osOpenFile fn (osRename fn (fn ++ ".bak") w).2).1 = some e →
        (migrateConfig env fn root w).1 =
          Run.ret (some (Err.errorsNew
            ("failed to open new config file for writing: " ++ e.text))) ∧
        (migrateConfig env fn root w).2.trace =
          w.trace ++ [Syscall.rename fn (fn ++ ".bak"), Syscall.openFile fn]) ∧
    ((osRename fn (fn ++ ".bak") w).1 = none →
      (osOpenFile fn (osRename fn (fn ++ ".bak") w).2).1 = none →
        (migrateConfig env fn root w).2.trace =
          w.trace ++ [Syscall.rename fn (fn ++ ".bak"), Syscall.openFile fn,
            Syscall.write fn b] ∧
        (migrateConfig env fn root w).1 =
          Run.ret (shortWriteCheck (w.writeOutcome fn b).1 (w.writeOutcome fn b).2 b.length) ∧
        ∀ e, (w.writeOutcome fn b).2 = some e →
          (migrateConfig env fn root w).1 = Run.ret (some (Err.os e))) := by
  rw [migrateConfig_of_rebuild env fn root w d hr hv, hmar]
  simp only
  unfold replaceFile osRename
  cases hf : w.fault (Syscall.rename fn (fn ++ ".bak")) with
  | some oe =>
    simp
  | none =>
    cases ho : w.files fn with
    | none => simp
    | some old =>
      simp only
      unfold osOpenFile
      simp only
      cases hf2 : w.fault (Syscall.openFile fn) with
      | some oe2 => simp
      | none =>
        unfold fileWrite
        simp only [reduceCtorEq, false_implies, implies_true, true_and, forall_const]
        refine ⟨by simp, ?_⟩
        intro e he
        rw [he]
        rfl

/-- Witness for C13 (amended): the sample legacy file where the rename is refused. -/
theorem migrateConfig_replace_sequence_witness :
    (migrateConfig sampleEnv "cfg" sampleLegacyTree noRenameWorld).1 =
        Run.ret (some (Err.errorsNew ("failed to back up existing config: " ++
          "rename cfg cfg.bak: permission denied"))) ∧
      (migrateConfig sampleEnv "cfg" sampleLegacyTree noRenameWorld).2.trace =
        noRenameWorld.trace ++ [Syscall.rename "cfg" ("cfg" ++ ".bak")] ∧
      (migrateConfig sampleEnv "cfg" sampleLegacyTree noRenameWorld).2.files
        = noRenameWorld.files :=
  (migrateConfig_replace_sequence sampleEnv "cfg" sampleLegacyTree noRenameWorld sampleData
    sampleCurrentBytes (by decide) (by decide) (by rfl)).1
    ⟨"rename cfg cfg.bak: permission denied", false⟩ (by decide)

/-! ## C14: a host whose value node has no content -/

/-- C14 fails on the code: the document `github.com: token` is map-rooted and is
classified legacy, yet `migrateConfig` neither returns nil nor an error on it: the
host's value is a scalar, `topLevelKeys[i+1].Content[0]` (line 103) is out of range
and the call panics. The same happens on `github.com: []`, an empty collection. -/
theorem migrateConfig_panics_without_content :
    MapRooted sampleScalarHost ∧
      isLegacy sampleScalarHost = Run.ret true ∧
      (migrateConfig sampleEnv "cfg" sampleScalarHost sampleWorld).1 = Run.panic ∧
      MapRooted sampleEmptyListHost ∧
      isLegacy sampleEmptyListHost = Run.ret true ∧
      (migrateConfig sampleEnv "cfg" sampleEmptyListHost sampleWorld).1 = Run.panic := by
  refine ⟨⟨_, _, rfl, rfl⟩, by decide, by decide, ⟨_, _, rfl, rfl⟩, by decide, by decide⟩

/-! ## C15: which nodes contribute a hostname -/

/-- C15 fails on the code: in the map-rooted document with the pairs
`"": example.org` and `? [x] : y` the walk completes, no key node of the top-level
mapping has a non-empty value, so the claim's set of hostnames is empty, yet the
rebuilt structure has the hostname `example.org`, contributed by the value node at
index 1. -/
theorem walk_takes_hostname_from_value_node :
    MapRooted sampleValueHost ∧
      (∀ n ∈ keyNodes [scalar "", scalar "example.org", sequence [scalar "x"], scalar "y"],
        n.Value = "") ∧
      rebuild sampleValueHost = Run.ret [("hosts", [("example.org", [])])] := by
  refine ⟨⟨_, _, rfl, rfl⟩, by decide, by decide⟩

/-! ## C16: which nodes are taken for field names -/

/-- C16 fails on the code: in the legacy document `github.com: [{user: user,
oauth_token: OTOKEN}]` the only key `user` is paired with the value `user`, so the
claim gives the entry `user: user`; the inner walk takes the value node `user` for a
field name as well and overwrites the entry with the text of the node after it,
`oauth_token`. `migrateConfig` returns nil and the file written says
`user: oauth_token`. -/
theorem walk_takes_field_name_from_value_node :
    (findEntry (fieldNodes [("user", "user"), ("oauth_token", "OTOKEN")]) "user").map Node.Value
        = some "user" ∧
      rebuild sampleUserNamedUser
        = Run.ret [("hosts", [("github.com",
            [("user", "oauth_token"), ("oauth_token", "OTOKEN")])])] ∧
      (migrateConfig sampleEnv "cfg" sampleUserNamedUser sampleWorld).1 = Run.ret none ∧
      (migrateConfig sampleEnv "cfg" sampleUserNamedUser sampleWorld).2.files "cfg"
        = some (asciiBytes
            "hosts:\n    github.com:\n        user: oauth_token\n        oauth_token: OTOKEN\n") := by
  refine ⟨by decide, by decide, by decide, by decide⟩

/-! ## C17: the flow of `ParseConfig` on a legacy document -/

/-- C17: for every legacy document (the first parse succeeds and `isLegacy` is true),
if `migrateConfig` returns an error, `ParseConfig` returns that error unchanged with a
nil Config; if `migrateConfig` returns nil, `ParseConfig` reads and parses the file
again in the world migration left, and returns the Config built from that second tree,
or, if the second read or parse fails with `e`, a nil Config with the error
`failed to reparse migrated config: e`. -/
theorem ParseConfig_legacy_flow (env : Env) (fn : String) (w : World) (data : Option Bytes)
    (root : Node)
    (hp : parseConfigFile env fn w = (data, some root, none))
    (hl : isLegacy root = Run.ret true) :
    (∀ e w1, migrateConfig env fn root w = (Run.ret (some e), w1) →
      ParseConfig env fn w = (Run.ret (none, some e), w1)) ∧
    (∀ w1, migrateConfig env fn root w = (Run.ret none, w1) →
      (∀ data1 root1, parseConfigFile env fn w1 = (data1, some root1, none) →
        ParseConfig env fn w = (Run.ret (some (NewConfig root1), none), w1)) ∧
      (∀ data1 r1 e, parseConfigFile env fn w1 = (data1, r1, some e) →
        ParseConfig env fn w =
          (Run.ret (none, some (Err.errorsNew
            ("failed to reparse migrated config: " ++ e.text))), w1))) ∧
    (∀ w1, migrateConfig env fn root w = (Run.panic, w1) →
      ParseConfig env fn w = (Run.panic, w1)) := by
  refine ⟨?_, ?_, ?_⟩
  · intro e w1 hm
    unfold ParseConfig
    rw [hp]
    simp only [hl, hm]
  · intro w1 hm
    refine ⟨?_, ?_⟩
    · intro data1 root1 hp1
      unfold ParseConfig
      rw [hp]
      simp only [hl, hm, hp1]
    · intro data1 r1 e hp1
      unfold ParseConfig
      rw [hp]
      simp only [hl, hm, hp1]
  · intro w1 hm
    unfold ParseConfig
    rw [hp]
    simp only [hl, hm]

/-- Witness for C17: the sample legacy file at `cfg`; the Config comes from the tree of
the rewritten file. -/
theorem ParseConfig_legacy_flow_witness :
    ParseConfig sampleEnv "cfg" sampleWorld =
      (Run.ret (some (NewConfig sampleCurrentTree), none),
        (migrateConfig sampleEnv "cfg" sampleLegacyTree sampleWorld).2) :=
  ((ParseConfig_legacy_flow sampleEnv "cfg" sampleWorld (some sampleLegacyBytes)
      sampleLegacyTree (by rfl) (by decide)).2.1
      (migrateConfig sampleEnv "cfg" sampleLegacyTree sampleWorld).2 (by rfl)).1
    (some sampleCurrentBytes) sampleCurrentTree (by rfl)

/-! ## C18: the path `WriteConfigFile` opens -/

/-- C18 fails on the code: `WriteConfigFile(fn, data)` opens `configFile()`, not `fn`.
Called with `fn = cfg` in the sample world it attempts a create and a write on the
default path only, leaves the file at `cfg` as it was and puts the data at the default
path; and for any two paths the calls do the same thing. -/
theorem WriteConfigFile_ignores_fn :
    (WriteConfigFile sampleEnv "cfg" sampleCurrentBytes sampleWorld).1 = none ∧
      (WriteConfigFile sampleEnv "cfg" sampleCurrentBytes sampleWorld).2.trace
        = [Syscall.openFile "/home/monalisa/.config/gh/config.yml",
           Syscall.write "/home/monalisa/.config/gh/config.yml" sampleCurrentBytes] ∧
      (WriteConfigFile sampleEnv "cfg" sampleCurrentBytes sampleWorld).2.files "cfg"
        = some sampleLegacyBytes ∧
      (WriteConfigFile sampleEnv "cfg" sampleCurrentBytes sampleWorld).2.files
          "/home/monalisa/.config/gh/config.yml" = some sampleCurrentBytes ∧
      ∀ (env : Env) (fn1 fn2 : String) (data : Bytes) (w : World),
        WriteConfigFile env fn1 data w = WriteConfigFile env fn2 data w := by
  refine ⟨by decide, by decide, by decide, by decide, ?_⟩
  intro env fn1 fn2 data w
  rfl

end ConfigFile
